import Mathlib

/-!
Verification development for the ClarityQL structured-query compiler core.

Shallow embedding of:
  packages/core/sql_ast/models.py        (AST node types)
  packages/core/schema_registry/registry.py
  packages/core/safety/validator.py
  packages/core/sql_ast/join_resolver.py
  packages/core/sql_ast/compiler.py
  packages/core/conversation/ast_merge.py
  packages/core/viz_inference/infer.py

Python dicts are modeled as insertion-ordered association lists with
last-write-wins upsert; Python sets used only for membership tests are
modeled as lists with membership; exceptions are modeled with Except.
-/

namespace ClarityQL

instance {ε α : Type} [DecidableEq ε] [DecidableEq α] :
    DecidableEq (Except ε α) := fun x y =>
  match x, y with
  | .ok a, .ok b =>
      if h : a = b then .isTrue (h ▸ rfl)
      else .isFalse fun he => h (Except.ok.inj he)
  | .error a, .error b =>
      if h : a = b then .isTrue (h ▸ rfl)
      else .isFalse fun he => h (Except.error.inj he)
  | .ok _, .error _ => .isFalse fun he => Except.noConfusion he
  | .error _, .ok _ => .isFalse fun he => Except.noConfusion he

/-! ## AST models (packages/core/sql_ast/models.py) -/

inductive AggregateFunction where
  | sum
  | count
  | countDistinct
  | avg
  | min
  | max
deriving DecidableEq, Repr

inductive FilterOperator where
  | eq
  | notEq
  | gt
  | gte
  | lt
  | lte
  | between
  | inOp
  | notIn
  | like
  | isNull
  | isNotNull
deriving DecidableEq, Repr

inductive OrderDirection where
  | asc
  | desc
deriving DecidableEq, Repr

/-- Filter.value is `Any` in Python; the program only ever uses scalars
(strings, numbers, booleans, None) and lists/tuples of scalars
(for BETWEEN and IN), so values are modeled as scalar-or-list. -/
inductive Scalar where
  | str (s : String)
  | int (n : Int)
  | bool (b : Bool)
  | null
deriving DecidableEq, Repr

inductive Value where
  | scalar (v : Scalar)
  | list (vs : List Scalar)
deriving DecidableEq, Repr

structure Metric where
  function : AggregateFunction
  field : String
  alias_ : Option String := none
deriving DecidableEq, Repr

structure Dimension where
  field : String
  alias_ : Option String := none
deriving DecidableEq, Repr

structure Filter where
  field : String
  operator : FilterOperator
  value : Value
deriving DecidableEq, Repr

structure OrderBy where
  field : String
  direction : OrderDirection := OrderDirection.desc
deriving DecidableEq, Repr

/-- QueryAST. The pydantic model enforces metrics nonempty and
1 ≤ limit ≤ 1000; here the record is plain and the enforced invariant
is the predicate `QueryAST.wf` below. -/
structure QueryAST where
  metrics : List Metric
  dimensions : List Dimension := []
  filters : List Filter := []
  order_by : List OrderBy := []
  limit : Int := 50
deriving DecidableEq, Repr

/-- The validation pydantic performs at construction time:
`at_least_one_metric` plus the `ge=1, le=1000` bound on limit. -/
def QueryAST.wf (ast : QueryAST) : Prop :=
  ast.metrics ≠ [] ∧ 1 ≤ ast.limit ∧ ast.limit ≤ 1000

instance (ast : QueryAST) : Decidable ast.wf := by
  unfold QueryAST.wf; infer_instance

/-! ## Association lists standing in for Python dicts -/

/-- `d[k] = v` on a Python dict: replace in place if the key is present
(keeping its insertion position), else append at the end. -/
def alUpsert {α : Type} (l : List (String × α)) (k : String) (v : α) :
    List (String × α) :=
  match l with
  | [] => [(k, v)]
  | (k1, v1) :: rest =>
      if k1 = k then (k, v) :: rest else (k1, v1) :: alUpsert rest k v

/-- `d.get(k)` on a Python dict. -/
def alLookup {α : Type} (l : List (String × α)) (k : String) : Option α :=
  match l with
  | [] => none
  | (k1, v1) :: rest => if k1 = k then some v1 else alLookup rest k

theorem alLookup_alUpsert {α : Type} (l : List (String × α)) (k k2 : String)
    (v : α) :
    alLookup (alUpsert l k v) k2 = if k2 = k then some v else alLookup l k2 := by
  induction l with
  | nil =>
      simp only [alUpsert, alLookup]
      by_cases h : k = k2
      · subst h; simp
      · rw [if_neg h, if_neg fun hh => h hh.symm]
  | cons hd tl ih =>
      obtain ⟨k1, v1⟩ := hd
      by_cases h1 : k1 = k
      · subst h1
        simp only [alUpsert, if_pos rfl, alLookup]
        by_cases h2 : k1 = k2
        · subst h2; simp
        · rw [if_neg h2, if_neg fun hh => h2 hh.symm, if_neg h2]
      · simp only [alUpsert, if_neg h1, alLookup]
        by_cases h2 : k1 = k2
        · subst h2
          rw [if_pos rfl, if_neg fun hh => h1 hh, if_pos rfl]
        · rw [if_neg h2, ih]
          by_cases h3 : k2 = k <;> simp [h3, h2]

/-! ## Schema registry (packages/core/schema_registry/registry.py) -/

inductive FieldType where
  | string
  | numeric
  | date
  | boolean
  | timestamp
deriving DecidableEq, Repr

inductive JoinType where
  | inner
  | left
  | right
  | full
deriving DecidableEq, Repr

structure FieldMeta where
  table : String
  column : String
  field_type : FieldType
  description : String := ""
  aggregatable : Bool := false
  allowed_values : Option (List String) := none
  date_trunc : Option String := none
deriving DecidableEq, Repr

/-- TableMeta; `fields` is a Python dict, kept as insertion-ordered pairs. -/
structure TableMeta where
  name : String
  description : String := ""
  primary_key : String := "id"
  fields : List (String × FieldMeta) := []
deriving DecidableEq, Repr

structure JoinMeta where
  left_table : String
  right_table : String
  left_key : String
  right_key : String
  join_type : JoinType := JoinType.left
deriving DecidableEq, Repr

structure DerivedMetric where
  name : String
  base_table : String
  expression : String
  description : String := ""
  fields_used : List String := []
deriving DecidableEq, Repr

/-- The constructor arguments of SchemaRegistry (tables and derived
metrics are Python dicts). -/
structure SchemaRegistry where
  tables : List (String × TableMeta)
  joins : List JoinMeta
  derived_metrics : List (String × DerivedMetric)
deriving DecidableEq, Repr

/-- The `_field_index` built in `SchemaRegistry.__init__`: for each table
in order, for each field in order, `index[field_name] = (table, meta)`. -/
def buildFieldIndex (tables : List (String × TableMeta)) :
    List (String × (String × FieldMeta)) :=
  tables.foldl
    (fun acc t =>
      t.2.fields.foldl (fun acc2 f => alUpsert acc2 f.1 (t.1, f.2)) acc)
    []

/-- The `_join_graph` built in `SchemaRegistry.__init__`: for each join,
`graph[left][right] = graph[right][left] = join`. -/
def buildJoinGraph (joins : List JoinMeta) :
    List (String × List (String × JoinMeta)) :=
  joins.foldl
    (fun g j =>
      let g1 := alUpsert g j.left_table
        (alUpsert ((alLookup g j.left_table).getD []) j.right_table j)
      alUpsert g1 j.right_table
        (alUpsert ((alLookup g1 j.right_table).getD []) j.left_table j))
    []

namespace SchemaRegistry

def fieldIndex (r : SchemaRegistry) : List (String × (String × FieldMeta)) :=
  buildFieldIndex r.tables

/-- `get_field`. -/
def getField (r : SchemaRegistry) (field_name : String) : Option FieldMeta :=
  (alLookup r.fieldIndex field_name).map (·.2)

/-- `get_field_table`. -/
def getFieldTable (r : SchemaRegistry) (field_name : String) : Option String :=
  (alLookup r.fieldIndex field_name).map (·.1)

/-- `get_table`. -/
def getTable (r : SchemaRegistry) (table_name : String) : Option TableMeta :=
  alLookup r.tables table_name

/-- `get_derived_metric`. -/
def getDerivedMetric (r : SchemaRegistry) (metric_name : String) :
    Option DerivedMetric :=
  alLookup r.derived_metrics metric_name

/-- `field_exists`. -/
def fieldExists (r : SchemaRegistry) (field_name : String) : Bool :=
  (alLookup r.fieldIndex field_name).isSome ||
    (alLookup r.derived_metrics field_name).isSome

/-- `get_join`: bidirectional lookup through the join graph. -/
def getJoin (r : SchemaRegistry) (table_a table_b : String) : Option JoinMeta :=
  match alLookup (buildJoinGraph r.joins) table_a with
  | some inner_map => alLookup inner_map table_b
  | none => none

end SchemaRegistry

/-- The `_DEFAULT_TABLES` / `_DEFAULT_JOINS` / `_DEFAULT_DERIVED_METRICS`
catalog from the source, used as concrete input for witnesses. -/
def defaultRegistry : SchemaRegistry :=
  { tables :=
      [ ("orders",
         { name := "orders"
           description := "Sales order records"
           primary_key := "order_id"
           fields :=
             [ ("order_date",
                { table := "orders", column := "order_date"
                  field_type := FieldType.date
                  description := "Date when the order was placed" })
             , ("order_month",
                { table := "orders", column := "order_date"
                  field_type := FieldType.date
                  description := "Month of the order (use for monthly trends)"
                  date_trunc := some "month" })
             , ("quantity",
                { table := "orders", column := "quantity"
                  field_type := FieldType.numeric
                  description := "Number of units ordered"
                  aggregatable := true })
             , ("unit_price",
                { table := "orders", column := "unit_price"
                  field_type := FieldType.numeric
                  description := "Price per unit in dollars"
                  aggregatable := true })
             , ("region",
                { table := "orders", column := "region"
                  field_type := FieldType.string
                  description := "Geographic sales region"
                  allowed_values :=
                    some ["North America", "Europe", "APAC", "LATAM"] }) ] })
      , ("products",
         { name := "products"
           description := "Product catalog"
           primary_key := "product_id"
           fields :=
             [ ("product_line",
                { table := "products", column := "product_line"
                  field_type := FieldType.string
                  description := "Product line name"
                  allowed_values := some ["Core", "Pro", "Enterprise"] })
             , ("category",
                { table := "products", column := "category"
                  field_type := FieldType.string
                  description := "Product category"
                  allowed_values :=
                    some ["Analytics", "Data Ops", "Finance",
                          "Growth", "Security"] }) ] })
      , ("customers",
         { name := "customers"
           description := "Customer information"
           primary_key := "customer_id"
           fields :=
             [ ("segment",
                { table := "customers", column := "segment"
                  field_type := FieldType.string
                  description := "Customer segment"
                  allowed_values := some ["Enterprise", "Mid-Market", "SMB"] })
             , ("country",
                { table := "customers", column := "country"
                  field_type := FieldType.string
                  description := "Customer country" }) ] }) ]
    joins :=
      [ { left_table := "orders", right_table := "products"
          left_key := "product_id", right_key := "product_id" }
      , { left_table := "orders", right_table := "customers"
          left_key := "customer_id", right_key := "customer_id" } ]
    derived_metrics :=
      [ ("revenue",
         { name := "revenue"
           base_table := "orders"
           expression := "quantity * unit_price"
           description := "Total revenue (quantity × unit price)"
           fields_used := ["quantity", "unit_price"] }) ] }

/-- Python truthiness of an optional string (None and "" are falsy):
`if m.alias:` and `if d.alias:` in `_validate_order_by`,
`metric.alias or metric.field`, `if dim.alias:`, and
`if field_meta.date_trunc:` in the compiler and viz inference. -/
def optTruthy : Option String → Option String
  | some a => if a = "" then none else some a
  | none => none

/-! ## Validator (packages/core/safety/validator.py) -/

/-- One constructor per raise site category of `ASTValidationError`,
following the classification in the spec. Both limit raises (over the
maximum and under the minimum) fall in `limitOutOfRange`. -/
inductive ValidationError where
  | unknownField (f : String)
  | notAggregatable (f : String)
  | operatorNotAllowed (op : FilterOperator) (f : String)
  | malformedFilterValue (f : String)
  | invalidOrderByField (f : String)
  | limitOutOfRange (limit : Int)
deriving DecidableEq, Repr

/-- `ALLOWED_OPERATORS` (a dict of sets; only membership is used). -/
def allowedOperators : FieldType → List FilterOperator
  | FieldType.string =>
      [.eq, .notEq, .inOp, .notIn, .like, .isNull, .isNotNull]
  | FieldType.numeric =>
      [.eq, .notEq, .gt, .gte, .lt, .lte, .between, .inOp, .notIn,
       .isNull, .isNotNull]
  | FieldType.date =>
      [.eq, .notEq, .gt, .gte, .lt, .lte, .between, .isNull, .isNotNull]
  | FieldType.timestamp =>
      [.eq, .notEq, .gt, .gte, .lt, .lte, .between, .isNull, .isNotNull]
  | FieldType.boolean =>
      [.eq, .notEq, .isNull, .isNotNull]

/-- `_validate_metrics`: fail-fast loop. -/
def validateMetrics (r : SchemaRegistry) : List Metric →
    Except ValidationError Unit
  | [] => .ok ()
  | m :: rest =>
      if ¬ r.fieldExists m.field then
        .error (.unknownField m.field)
      else if (r.getDerivedMetric m.field).isSome then
        validateMetrics r rest
      else
        match r.getField m.field with
        | some fm =>
            if ¬ fm.aggregatable then .error (.notAggregatable m.field)
            else validateMetrics r rest
        | none => validateMetrics r rest

/-- `_validate_dimensions`. -/
def validateDimensions (r : SchemaRegistry) : List Dimension →
    Except ValidationError Unit
  | [] => .ok ()
  | d :: rest =>
      if ¬ r.fieldExists d.field then .error (.unknownField d.field)
      else validateDimensions r rest

/-- `_validate_operator`. -/
def validateOperator (f : Filter) (fm : FieldMeta) :
    Except ValidationError Unit :=
  if f.operator ∉ allowedOperators fm.field_type then
    .error (.operatorNotAllowed f.operator f.field)
  else
    .ok ()

/-- `_validate_filter_value`: BETWEEN needs a 2-element sequence,
IN and NOT_IN need a list; IS_NULL and IS_NOT_NULL accept anything. -/
def validateFilterValue (f : Filter) (_fm : FieldMeta) :
    Except ValidationError Unit := do
  if f.operator = FilterOperator.between then
    match f.value with
    | Value.list vs =>
        if vs.length ≠ 2 then throw (.malformedFilterValue f.field) else pure ()
    | Value.scalar _ => throw (.malformedFilterValue f.field)
  if f.operator = FilterOperator.inOp ∨ f.operator = FilterOperator.notIn then
    match f.value with
    | Value.list _ => pure ()
    | Value.scalar _ => throw (.malformedFilterValue f.field)

/-- `_validate_filters`: fail-fast; derived-metric fields (registered but
with no field metadata) skip the operator and value checks. -/
def validateFilters (r : SchemaRegistry) : List Filter →
    Except ValidationError Unit
  | [] => .ok ()
  | f :: rest =>
      if ¬ r.fieldExists f.field then
        .error (.unknownField f.field)
      else
        match r.getField f.field with
        | none => validateFilters r rest
        | some fm => do
            validateOperator f fm
            validateFilterValue f fm
            validateFilters r rest

/-- The valid-field set assembled by `_validate_order_by`: metric
fields, dimension fields, and the truthy aliases (an alias is added
only under `if m.alias:` / `if d.alias:`, so None and the empty string
are excluded). -/
def validOrderFields (ast : QueryAST) : List String :=
  ast.metrics.map (·.field) ++ ast.dimensions.map (·.field) ++
    ast.metrics.filterMap (fun m => optTruthy m.alias_) ++
    ast.dimensions.filterMap (fun d => optTruthy d.alias_)

/-- `_validate_order_by`: every ORDER BY field must be a metric or
dimension field or alias. -/
def validateOrderBy (ast : QueryAST) : Except ValidationError Unit :=
  loop ast.order_by
where
  loop : List OrderBy → Except ValidationError Unit
    | [] => .ok ()
    | o :: rest =>
        if o.field ∉ validOrderFields ast then
          .error (.invalidOrderByField o.field)
        else loop rest

/-- `_validate_limit`. -/
def validateLimit (limit : Int) : Except ValidationError Unit :=
  if limit > 1000 then .error (.limitOutOfRange limit)
  else if limit < 1 then .error (.limitOutOfRange limit)
  else .ok ()

/-- `ASTValidator.validate`: metrics, dimensions, filters, order by,
limit, in that order, failing fast. -/
def validate (r : SchemaRegistry) (ast : QueryAST) :
    Except ValidationError Unit := do
  validateMetrics r ast.metrics
  validateDimensions r ast.dimensions
  validateFilters r ast.filters
  validateOrderBy ast
  validateLimit ast.limit

/-! ## Join resolver (packages/core/sql_ast/join_resolver.py) -/

structure JoinStep where
  left_table : String
  right_table : String
  left_key : String
  right_key : String
  join_type : JoinType := JoinType.left
deriving DecidableEq, Repr

structure JoinPlan where
  base_table : String
  joins : List JoinStep
deriving DecidableEq, Repr

/-- `indexError` models the Python IndexError raised by
`ast.metrics[0]` on an empty metric list, distinct from the
JoinResolutionError raises. -/
inductive JoinResolutionError where
  | unresolvableField (f : String)
  | noJoinPath (base target : String)
  | indexError
deriving DecidableEq, Repr

/-- `_field_to_table`: derived metrics resolve to their declared base
table, physical fields through the field index. -/
def fieldToTable (r : SchemaRegistry) (field_name : String) :
    Except JoinResolutionError String :=
  match r.getDerivedMetric field_name with
  | some derived => .ok derived.base_table
  | none =>
      match r.getFieldTable field_name with
      | some t => .ok t
      | none => .error (.unresolvableField field_name)

/-- `tables.add(t)` on the Python set, modeled as an insertion-ordered
de-duplicated list (membership is all that downstream code depends on). -/
def addTable (ts : List String) (t : String) : List String :=
  if t ∈ ts then ts else ts ++ [t]

def collectTablesFrom (r : SchemaRegistry) :
    List String → List String → Except JoinResolutionError (List String)
  | ts, [] => .ok ts
  | ts, f :: rest =>
      (fieldToTable r f).bind fun t => collectTablesFrom r (addTable ts t) rest

/-- `_collect_required_tables`: tables of all metric, dimension and
filter fields. -/
def collectRequiredTables (r : SchemaRegistry) (ast : QueryAST) :
    Except JoinResolutionError (List String) := do
  let ts ← collectTablesFrom r [] (ast.metrics.map (·.field))
  let ts ← collectTablesFrom r ts (ast.dimensions.map (·.field))
  collectTablesFrom r ts (ast.filters.map (·.field))

/-- `_determine_base_table`: the table of the first metric. -/
def determineBaseTable (r : SchemaRegistry) (ast : QueryAST) :
    Except JoinResolutionError String :=
  match ast.metrics with
  | [] => .error .indexError
  | m :: _ => fieldToTable r m.field

/-- `_find_join`: direct edges only; the stored edge is emitted as-is
when its left table is the base, otherwise reversed. -/
def findJoin (r : SchemaRegistry) (base_table target_table : String) :
    Option JoinStep :=
  match r.getJoin base_table target_table with
  | none => none
  | some jm =>
      if jm.left_table = base_table then
        some { left_table := jm.left_table, right_table := jm.right_table
               left_key := jm.left_key, right_key := jm.right_key
               join_type := jm.join_type }
      else
        some { left_table := jm.right_table, right_table := jm.left_table
               left_key := jm.right_key, right_key := jm.left_key
               join_type := jm.join_type }

/-- The join-collecting loop inside `resolve`. -/
def resolveJoinsLoop (r : SchemaRegistry) (base_table : String) :
    List String → Except JoinResolutionError (List JoinStep)
  | [] => .ok []
  | t :: rest =>
      if t = base_table then resolveJoinsLoop r base_table rest
      else
        match findJoin r base_table t with
        | none => .error (.noJoinPath base_table t)
        | some j => (resolveJoinsLoop r base_table rest).map (j :: ·)

/-- `JoinResolver.resolve`. -/
def resolve (r : SchemaRegistry) (ast : QueryAST) :
    Except JoinResolutionError JoinPlan := do
  let required ← collectRequiredTables r ast
  let base ← determineBaseTable r ast
  let joins ← resolveJoinsLoop r base required
  .ok { base_table := base, joins := joins }

/-! ## SQL compiler (packages/core/sql_ast/compiler.py) -/

/-- One step of Python `s.split(sep)`: if `l` starts with the pattern,
return the remainder. -/
def charsStartWith : List Char → List Char → Option (List Char)
  | l, [] => some l
  | [], _ :: _ => none
  | c :: cs, p :: ps => if c = p then charsStartWith cs ps else none

/-- Python `s.split(sep)` over characters, scanning left to right for
non-overlapping separator occurrences. The fuel argument (instantiated
with the input length, always sufficient) keeps the recursion
structural. -/
def pySplitCharsAux (s0 : Char) (ss : List Char) :
    Nat → List Char → List Char → List (List Char)
  | 0, _, acc => [acc.reverse]
  | _ + 1, [], acc => [acc.reverse]
  | fuel + 1, c :: cs, acc =>
      if c = s0 then
        match charsStartWith cs ss with
        | some rest => acc.reverse :: pySplitCharsAux s0 ss fuel rest []
        | none => pySplitCharsAux s0 ss fuel cs (c :: acc)
      else pySplitCharsAux s0 ss fuel cs (c :: acc)

/-- Python `s.split(sep)` (with a nonempty separator, as used by
`_parse_expression`). -/
def pySplit (s sep : String) : List String :=
  match sep.data with
  | [] => [s]
  | s0 :: ss => (pySplitCharsAux s0 ss s.data.length s.data []).map String.mk

/-- Python `s.strip()`. -/
def pyStrip (s : String) : String :=
  String.mk
    (((s.data.dropWhile Char.isWhitespace).reverse.dropWhile
        Char.isWhitespace).reverse)

/-- A SQLAlchemy Table object: a name and its physical columns
(`table.c` access). -/
structure SQLTable where
  name : String
  columns : List String
deriving DecidableEq, Repr

/-- `keyError` models Python KeyError from dict or `table.c` access,
`compileError` the SQLCompileError raises, `valueAccessError` indexing
a filter value that is not a 2-element sequence. -/
inductive CompileError where
  | keyError (k : String)
  | compileError (msg : String)
  | valueAccessError
deriving DecidableEq, Repr

/-- SQLAlchemy column expressions, as built by the compiler. -/
inductive SQLExpr where
  | col (table column : String)
  | dateTrunc (granularity : String) (e : SQLExpr)
  | label (name : String) (e : SQLExpr)
  | funcSum (e : SQLExpr)
  | funcCount (e : SQLExpr)
  | funcAvg (e : SQLExpr)
  | funcMin (e : SQLExpr)
  | funcMax (e : SQLExpr)
  | distinctE (e : SQLExpr)
  | mul (a b : SQLExpr)
  | divE (a b : SQLExpr)
  | add (a b : SQLExpr)
  | sub (a b : SQLExpr)
  | cmpEq (e : SQLExpr) (v : Value)
  | cmpNe (e : SQLExpr) (v : Value)
  | cmpGt (e : SQLExpr) (v : Value)
  | cmpGte (e : SQLExpr) (v : Value)
  | cmpLt (e : SQLExpr) (v : Value)
  | cmpLte (e : SQLExpr) (v : Value)
  | betweenE (e : SQLExpr) (lo hi : Scalar)
  | inE (e : SQLExpr) (v : Value)
  | notInE (e : SQLExpr) (v : Value)
  | likeE (e : SQLExpr) (v : Value)
  | isNullE (e : SQLExpr)
  | isNotNullE (e : SQLExpr)
  | onEq (a b : SQLExpr)
  | literalColumn (s : String)
  | ascE (e : SQLExpr)
  | descE (e : SQLExpr)
deriving DecidableEq, Repr

/-- The FROM clause: base table with joins applied sequentially. -/
inductive FromClause where
  | table (t : String)
  | join (base : FromClause) (right : String) (cond : SQLExpr)
      (isOuter isFull : Bool)
deriving DecidableEq, Repr

/-- The compiled Select statement (an empty groupBy or whereClauses
list means the clause is absent). -/
structure Statement where
  selectColumns : List SQLExpr
  fromClause : FromClause
  whereClauses : List SQLExpr
  groupBy : List SQLExpr
  orderBy : List SQLExpr
  limit : Int
deriving DecidableEq, Repr

/-- `self._tables[name]`: KeyError when the table is absent. -/
def tableLookup (tables : List (String × SQLTable)) (name : String) :
    Except CompileError SQLTable :=
  match alLookup tables name with
  | some t => .ok t
  | none => .error (.keyError name)

/-- `table.c[column]`: KeyError when the column is absent. -/
def columnAccess (t : SQLTable) (c : String) : Except CompileError SQLExpr :=
  if c ∈ t.columns then .ok (.col t.name c) else .error (.keyError c)

/-- `_field_to_table_column`. -/
def fieldToTableColumn (r : SchemaRegistry) (field_name : String) :
    Except CompileError (String × String) :=
  match r.getField field_name with
  | some fm => .ok (fm.table, fm.column)
  | none =>
      match r.getDerivedMetric field_name with
      | some _ =>
          .error (.compileError
            ("Cannot resolve derived metric " ++ field_name ++ " as a column"))
      | none => .error (.compileError ("Unknown field " ++ field_name))

/-- `_resolve_column`. -/
def resolveColumn (r : SchemaRegistry) (tables : List (String × SQLTable))
    (field_name : String) : Except CompileError SQLExpr := do
  let tc ← fieldToTableColumn r field_name
  let t ← tableLookup tables tc.1
  columnAccess t tc.2

/-- `_resolve_dimension_column`: apply date_trunc when the field has a
truthy configured granularity. -/
def resolveDimensionColumn (r : SchemaRegistry)
    (tables : List (String × SQLTable)) (field_name : String) :
    Except CompileError SQLExpr := do
  let c ← resolveColumn r tables field_name
  match r.getField field_name with
  | some fm =>
      match optTruthy fm.date_trunc with
      | some g => .ok (.dateTrunc g c)
      | none => .ok c
  | none => .ok c

/-- `_parse_expression`: try splitting (space-surrounded) on `*`, `/`,
`+`, `-` in that order; a split into exactly two parts resolves both
trimmed parts as columns of the base table; otherwise a single bare
column is accepted; anything else is a compile error. -/
def parseExpression (expression : String) (t : SQLTable) :
    Except CompileError SQLExpr :=
  let expr := pyStrip expression
  match pySplit expr " * " with
  | [a, b] =>
      (columnAccess t (pyStrip a)).bind fun lc =>
        (columnAccess t (pyStrip b)).map fun rc => .mul lc rc
  | _ =>
    match pySplit expr " / " with
    | [a, b] =>
        (columnAccess t (pyStrip a)).bind fun lc =>
          (columnAccess t (pyStrip b)).map fun rc => .divE lc rc
    | _ =>
      match pySplit expr " + " with
      | [a, b] =>
          (columnAccess t (pyStrip a)).bind fun lc =>
            (columnAccess t (pyStrip b)).map fun rc => .add lc rc
      | _ =>
        match pySplit expr " - " with
        | [a, b] =>
            (columnAccess t (pyStrip a)).bind fun lc =>
              (columnAccess t (pyStrip b)).map fun rc => .sub lc rc
        | _ =>
          if expr ∈ t.columns then .ok (.col t.name expr)
          else
            .error (.compileError
              ("Cannot parse derived metric expression: " ++ expression))

/-- `_apply_aggregate` (the wildcard raise is unreachable: the enum
match is exhaustive). -/
def applyAggregate (f : AggregateFunction) (e : SQLExpr) : SQLExpr :=
  match f with
  | .sum => .funcSum e
  | .count => .funcCount e
  | .countDistinct => .funcCount (.distinctE e)
  | .avg => .funcAvg e
  | .min => .funcMin e
  | .max => .funcMax e

/-- `_resolve_metric` together with `_resolve_derived_metric`. -/
def resolveMetric (r : SchemaRegistry) (tables : List (String × SQLTable))
    (m : Metric) : Except CompileError SQLExpr :=
  match r.getDerivedMetric m.field with
  | some derived => do
      let t ← tableLookup tables derived.base_table
      let expr ← parseExpression derived.expression t
      .ok (.label ((optTruthy m.alias_).getD m.field)
        (applyAggregate m.function expr))
  | none => do
      let c ← resolveColumn r tables m.field
      .ok (.label ((optTruthy m.alias_).getD m.field)
        (applyAggregate m.function c))

/-- `_apply_filter_operator` (the wildcard raise is unreachable). -/
def applyFilterOperator (c : SQLExpr) (op : FilterOperator) (v : Value) :
    Except CompileError SQLExpr :=
  match op with
  | .eq => .ok (.cmpEq c v)
  | .notEq => .ok (.cmpNe c v)
  | .gt => .ok (.cmpGt c v)
  | .gte => .ok (.cmpGte c v)
  | .lt => .ok (.cmpLt c v)
  | .lte => .ok (.cmpLte c v)
  | .between =>
      match v with
      | .list vs =>
          match vs.get? 0, vs.get? 1 with
          | some lo, some hi => .ok (.betweenE c lo hi)
          | _, _ => .error .valueAccessError
      | .scalar _ => .error .valueAccessError
  | .inOp => .ok (.inE c v)
  | .notIn => .ok (.notInE c v)
  | .like => .ok (.likeE c v)
  | .isNull => .ok (.isNullE c)
  | .isNotNull => .ok (.isNotNullE c)

/-- `_resolve_filter`: derived metrics filter through their parsed base
expression, physical fields through their column. -/
def resolveFilter (r : SchemaRegistry) (tables : List (String × SQLTable))
    (f : Filter) : Except CompileError SQLExpr :=
  match r.getDerivedMetric f.field with
  | some derived => do
      let t ← tableLookup tables derived.base_table
      let c ← parseExpression derived.expression t
      applyFilterOperator c f.operator f.value
  | none => do
      let c ← resolveColumn r tables f.field
      applyFilterOperator c f.operator f.value

def orderDir (d : OrderDirection) (e : SQLExpr) : SQLExpr :=
  match d with
  | .desc => .descE e
  | .asc => .ascE e

/-- `_resolve_order_by`: first matching metric (by alias or field) as a
literal column, else first matching dimension, else a compile error. -/
def resolveOrderBy (r : SchemaRegistry) (tables : List (String × SQLTable))
    (order : OrderBy) (ast : QueryAST) : Except CompileError SQLExpr :=
  match ast.metrics.find?
      (fun m => m.alias_ == some order.field || m.field == order.field) with
  | some m =>
      .ok (orderDir order.direction
        (.literalColumn ((optTruthy m.alias_).getD m.field)))
  | none =>
      match ast.dimensions.find?
          (fun d => d.alias_ == some order.field || d.field == order.field) with
      | some d =>
          (resolveDimensionColumn r tables d.field).map (orderDir order.direction)
      | none =>
          .error (.compileError
            ("ORDER BY field " ++ order.field ++ " not found in query"))

/-- `_apply_join`. -/
def applyJoin (tables : List (String × SQLTable)) (fc : FromClause)
    (j : JoinStep) : Except CompileError FromClause := do
  let left ← tableLookup tables j.left_table
  let right ← tableLookup tables j.right_table
  let lc ← columnAccess left j.left_key
  let rc ← columnAccess right j.right_key
  let isOuter :=
    match j.join_type with
    | .left | .right | .full => true
    | .inner => false
  let isFull :=
    match j.join_type with
    | .full => true
    | _ => false
  .ok (.join fc j.right_table (.onEq lc rc) isOuter isFull)

def applyJoins (tables : List (String × SQLTable)) (fc : FromClause) :
    List JoinStep → Except CompileError FromClause
  | [] => .ok fc
  | j :: rest => (applyJoin tables fc j).bind fun fc2 => applyJoins tables fc2 rest

/-- The dimension loop of `compile`: each dimension contributes one
(possibly labeled) SELECT column and one GROUP BY column, both obtained
from `_resolve_dimension_column`. -/
def compileDimensions (r : SchemaRegistry) (tables : List (String × SQLTable)) :
    List Dimension → Except CompileError (List SQLExpr × List SQLExpr)
  | [] => .ok ([], [])
  | dim :: rest => do
      let c ← resolveDimensionColumn r tables dim.field
      let labeled :=
        match optTruthy dim.alias_ with
        | some a => SQLExpr.label a c
        | none => c
      let gb ← resolveDimensionColumn r tables dim.field
      let sg ← compileDimensions r tables rest
      .ok (labeled :: sg.1, gb :: sg.2)

def compileMetrics (r : SchemaRegistry) (tables : List (String × SQLTable)) :
    List Metric → Except CompileError (List SQLExpr)
  | [] => .ok []
  | m :: rest => do
      let e ← resolveMetric r tables m
      let es ← compileMetrics r tables rest
      .ok (e :: es)

def compileFilters (r : SchemaRegistry) (tables : List (String × SQLTable)) :
    List Filter → Except CompileError (List SQLExpr)
  | [] => .ok []
  | f :: rest => do
      let e ← resolveFilter r tables f
      let es ← compileFilters r tables rest
      .ok (e :: es)

def compileOrderBys (r : SchemaRegistry) (tables : List (String × SQLTable))
    (ast : QueryAST) : List OrderBy → Except CompileError (List SQLExpr)
  | [] => .ok []
  | o :: rest => do
      let e ← resolveOrderBy r tables o ast
      let es ← compileOrderBys r tables ast rest
      .ok (e :: es)

/-- `SQLCompiler.compile`. -/
def compile (r : SchemaRegistry) (tables : List (String × SQLTable))
    (ast : QueryAST) (plan : JoinPlan) : Except CompileError Statement := do
  let _base ← tableLookup tables plan.base_table
  let fromClause ← applyJoins tables (.table plan.base_table) plan.joins
  let dims ← compileDimensions r tables ast.dimensions
  let metricCols ← compileMetrics r tables ast.metrics
  let whereClauses ← compileFilters r tables ast.filters
  let orderCols ← compileOrderBys r tables ast ast.order_by
  .ok { selectColumns := dims.1 ++ metricCols
        fromClause := fromClause
        whereClauses := whereClauses
        groupBy := dims.2
        orderBy := orderCols
        limit := ast.limit }

/-! ## Visualization inference (packages/core/viz_inference/infer.py) -/

inductive VisualizationType where
  | table
  | bar
  | line
  | multiLine
  | kpi
deriving DecidableEq, Repr

structure VisualizationSpec where
  type : VisualizationType
  x : Option String := none
  y : Option String := none
  series : Option String := none
deriving DecidableEq, Repr

/-- `_is_date_field`: unregistered fields count as non-date. -/
def isDateField (field_name : String) (r : SchemaRegistry) : Bool :=
  match r.getField field_name with
  | none => false
  | some fm =>
      match fm.field_type with
      | .date => true
      | .timestamp => true
      | _ => false

def AggregateFunction.value : AggregateFunction → String
  | .sum => "sum"
  | .count => "count"
  | .countDistinct => "count_distinct"
  | .avg => "avg"
  | .min => "min"
  | .max => "max"

/-- `_get_metric_name`: alias when truthy, else function_field. -/
def getMetricName (ast : QueryAST) : Option String :=
  match ast.metrics with
  | [] => none
  | m :: _ =>
      match optTruthy m.alias_ with
      | some a => some a
      | none => some (m.function.value ++ "_" ++ m.field)

/-- `_get_dimension_name` at an in-range index: `dim.alias or dim.field`. -/
def dimensionName (d : Dimension) : String :=
  (optTruthy d.alias_).getD d.field

/-- `infer_visualization`. The Python code branches on
`len(ast.dimensions)` and indexes `ast.dimensions[0]` and `[1]`;
this is rendered as a match on the dimension list shape. -/
def inferVisualization (ast : QueryAST) (r : SchemaRegistry) :
    VisualizationSpec :=
  if ast.metrics.length = 0 then { type := .table }
  else
    let metric_name := getMetricName ast
    match ast.dimensions with
    | [] => { type := .kpi, y := metric_name }
    | [d0] =>
        if isDateField d0.field r then
          { type := .line, x := some (dimensionName d0), y := metric_name }
        else
          { type := .bar, x := some (dimensionName d0), y := metric_name }
    | [d0, d1] =>
        let d0_is_date := isDateField d0.field r
        let d1_is_date := isDateField d1.field r
        if d0_is_date && !d1_is_date then
          { type := .multiLine, x := some (dimensionName d0)
            y := metric_name, series := some (dimensionName d1) }
        else if d1_is_date && !d0_is_date then
          { type := .multiLine, x := some (dimensionName d1)
            y := metric_name, series := some (dimensionName d0) }
        else
          { type := .table }
    | _ => { type := .table }

/-! ## AST merge engine (packages/core/conversation/ast_merge.py) -/

/-- `_merge_metrics`: if delta is nonempty and the set of
(function, field) pairs differs from the previous set, take delta;
otherwise keep previous. Python compares `set` objects; set equality is
modeled as mutual list inclusion of the pair lists. -/
def pairSetEq (a b : List (AggregateFunction × String)) : Bool :=
  a.all (fun p => p ∈ b) && b.all (fun p => p ∈ a)

def mergeMetrics (previous delta : List Metric) : List Metric :=
  if delta ≠ [] then
    let deltaPairs := delta.map fun m => (m.function, m.field)
    let prevPairs := previous.map fun m => (m.function, m.field)
    if ¬ pairSetEq deltaPairs prevPairs then
      delta
    else
      previous
  else
    previous

/-- Loop body of `_merge_dimensions`: walk delta, appending dimensions
whose field is not yet among the seen fields. -/
def mergeDimensionsLoop (merged : List Dimension) (existing : List String) :
    List Dimension → List Dimension
  | [] => merged
  | dim :: rest =>
      if dim.field ∈ existing then
        mergeDimensionsLoop merged existing rest
      else
        mergeDimensionsLoop (merged ++ [dim]) (existing ++ [dim.field]) rest

/-- `_merge_dimensions`: extend previous with delta, de-duplicated by field. -/
def mergeDimensions (previous delta : List Dimension) : List Dimension :=
  if delta = [] then previous
  else mergeDimensionsLoop previous (previous.map (·.field)) delta

/-- One loop of dict building in `_merge_filters`:
`for f in fs: filter_map[f.field] = f`. -/
def filterFold (init : List (String × Filter)) (fs : List Filter) :
    List (String × Filter) :=
  fs.foldl (fun m f => alUpsert m f.field f) init

/-- `_merge_filters`: a dict keyed by filter field, previous first,
then overridden/extended by delta; the result is the dict's values. -/
def mergeFilters (previous delta : List Filter) : List Filter :=
  if delta = [] then previous
  else (filterFold (filterFold [] previous) delta).map (·.2)

/-- `_merge_order_by`: delta wholesale if nonempty, else previous. -/
def mergeOrderBy (previous delta : List OrderBy) : List OrderBy :=
  if delta ≠ [] then delta else previous

/-- `_merge_limit`: delta unless it equals the default sentinel 50. -/
def mergeLimit (previous delta : Int) : Int :=
  if delta ≠ 50 then delta else previous

/-- `merge_ast`. The try/except re-raise can only fire when the pydantic
re-validation of the merged record fails; the merged components are
computed exactly as in the source. -/
def mergeAst (previous delta : QueryAST) : QueryAST :=
  { metrics := mergeMetrics previous.metrics delta.metrics
    dimensions := mergeDimensions previous.dimensions delta.dimensions
    filters := mergeFilters previous.filters delta.filters
    order_by := mergeOrderBy previous.order_by delta.order_by
    limit := mergeLimit previous.limit delta.limit }

/-! ## Association-list lemmas -/

def alKeys {α : Type} (l : List (String × α)) : List String := l.map (·.1)

theorem alKeys_nil {α : Type} : alKeys ([] : List (String × α)) = [] := rfl

theorem alKeys_cons {α : Type} (k : String) (v : α) (l : List (String × α)) :
    alKeys ((k, v) :: l) = k :: alKeys l := rfl

theorem alKeys_append {α : Type} (a b : List (String × α)) :
    alKeys (a ++ b) = alKeys a ++ alKeys b := List.map_append _ a b

theorem mem_alUpsert {α : Type} {l : List (String × α)} {k : String} {v : α}
    {p : String × α} (h : p ∈ alUpsert l k v) : p = (k, v) ∨ p ∈ l := by
  induction l with
  | nil => simpa [alUpsert] using h
  | cons hd tl ih =>
      obtain ⟨k1, v1⟩ := hd
      by_cases h1 : k1 = k
      · rw [show alUpsert ((k1, v1) :: tl) k v = (k, v) :: tl by
          simp [alUpsert, h1]] at h
        rcases List.mem_cons.1 h with h2 | h2
        · exact Or.inl h2
        · exact Or.inr (List.mem_cons_of_mem _ h2)
      · rw [show alUpsert ((k1, v1) :: tl) k v = (k1, v1) :: alUpsert tl k v by
          simp [alUpsert, h1]] at h
        rcases List.mem_cons.1 h with h2 | h2
        · exact Or.inr (h2 ▸ List.mem_cons_self _ _)
        · rcases ih h2 with h3 | h3
          · exact Or.inl h3
          · exact Or.inr (List.mem_cons_of_mem _ h3)

theorem mem_alKeys_alUpsert {α : Type} {l : List (String × α)} {k k2 : String}
    {v : α} : k2 ∈ alKeys (alUpsert l k v) ↔ k2 ∈ alKeys l ∨ k2 = k := by
  induction l with
  | nil => simp [alUpsert, alKeys]
  | cons hd tl ih =>
      obtain ⟨k1, v1⟩ := hd
      by_cases h1 : k1 = k
      · rw [show alUpsert ((k1, v1) :: tl) k v = (k, v) :: tl by
          simp [alUpsert, h1]]
        rw [alKeys_cons, alKeys_cons, List.mem_cons, List.mem_cons, h1]
        tauto
      · rw [show alUpsert ((k1, v1) :: tl) k v = (k1, v1) :: alUpsert tl k v by
          simp [alUpsert, h1]]
        rw [alKeys_cons, alKeys_cons, List.mem_cons, List.mem_cons, ih]
        tauto

theorem alKeys_nodup_alUpsert {α : Type} {l : List (String × α)} {k : String}
    {v : α} (h : (alKeys l).Nodup) : (alKeys (alUpsert l k v)).Nodup := by
  induction l with
  | nil => simp [alUpsert, alKeys]
  | cons hd tl ih =>
      obtain ⟨k1, v1⟩ := hd
      rw [alKeys_cons, List.nodup_cons] at h
      by_cases h1 : k1 = k
      · rw [show alUpsert ((k1, v1) :: tl) k v = (k, v) :: tl by
          simp [alUpsert, h1]]
        rw [alKeys_cons, List.nodup_cons]
        exact ⟨h1 ▸ h.1, h.2⟩
      · rw [show alUpsert ((k1, v1) :: tl) k v = (k1, v1) :: alUpsert tl k v by
          simp [alUpsert, h1]]
        rw [alKeys_cons, List.nodup_cons]
        refine ⟨?_, ih h.2⟩
        intro hmem
        rcases mem_alKeys_alUpsert.1 hmem with h2 | h2
        · exact h.1 h2
        · exact h1 h2

theorem alLookup_isSome_iff {α : Type} {l : List (String × α)} {k : String} :
    (alLookup l k).isSome ↔ k ∈ alKeys l := by
  induction l with
  | nil => simp [alLookup, alKeys]
  | cons hd tl ih =>
      obtain ⟨k1, v1⟩ := hd
      rw [alKeys_cons, List.mem_cons]
      by_cases h1 : k1 = k
      · simp [alLookup, h1]
      · rw [show alLookup ((k1, v1) :: tl) k = alLookup tl k by
          simp [alLookup, h1]]
        rw [ih]
        constructor
        · exact Or.inr
        · rintro (h2 | h2)
          · exact absurd h2.symm h1
          · exact h2

theorem alLookup_of_mem {α : Type} {l : List (String × α)} {k : String}
    {v : α} (hnd : (alKeys l).Nodup) (hm : (k, v) ∈ l) :
    alLookup l k = some v := by
  induction l with
  | nil => simp at hm
  | cons hd tl ih =>
      obtain ⟨k1, v1⟩ := hd
      rw [alKeys_cons, List.nodup_cons] at hnd
      rcases List.mem_cons.1 hm with h | h
      · obtain ⟨h1, h2⟩ := Prod.ext_iff.1 h
        simp only at h1 h2
        subst h1; subst h2
        simp [alLookup]
      · have hkeys : k ∈ alKeys tl := List.mem_map_of_mem (·.1) h
        have h1 : k1 ≠ k := fun he => hnd.1 (he ▸ hkeys)
        rw [show alLookup ((k1, v1) :: tl) k = alLookup tl k by
          simp [alLookup, h1]]
        exact ih hnd.2 h

theorem mem_of_alLookup {α : Type} {l : List (String × α)} {k : String}
    {v : α} (h : alLookup l k = some v) : (k, v) ∈ l := by
  induction l with
  | nil => simp [alLookup] at h
  | cons hd tl ih =>
      obtain ⟨k1, v1⟩ := hd
      by_cases h1 : k1 = k
      · rw [show alLookup ((k1, v1) :: tl) k = some v1 by
          simp [alLookup, h1]] at h
        obtain rfl : v1 = v := by simpa using h
        exact h1 ▸ List.mem_cons_self _ _
      · rw [show alLookup ((k1, v1) :: tl) k = alLookup tl k by
          simp [alLookup, h1]] at h
        exact List.mem_cons_of_mem _ (ih h)

theorem alUpsert_append_of_not_mem {α : Type} {l : List (String × α)}
    {k : String} {v : α} (h : k ∉ alKeys l) :
    alUpsert l k v = l ++ [(k, v)] := by
  induction l with
  | nil => simp [alUpsert]
  | cons hd tl ih =>
      obtain ⟨k1, v1⟩ := hd
      rw [alKeys_cons] at h
      have h1 : k1 ≠ k := fun he => h (he ▸ List.mem_cons_self _ _)
      have h2 : k ∉ alKeys tl := fun hm => h (List.mem_cons_of_mem _ hm)
      simp [alUpsert, h1, ih h2]

theorem alUpsert_self {α : Type} {l : List (String × α)} {k : String}
    {v : α} (h : alLookup l k = some v) : alUpsert l k v = l := by
  induction l with
  | nil => simp [alLookup] at h
  | cons hd tl ih =>
      obtain ⟨k1, v1⟩ := hd
      by_cases h1 : k1 = k
      · rw [show alLookup ((k1, v1) :: tl) k = some v1 by
          simp [alLookup, h1]] at h
        obtain rfl : v1 = v := by simpa using h
        simp [alUpsert, h1]
      · rw [show alLookup ((k1, v1) :: tl) k = alLookup tl k by
          simp [alLookup, h1]] at h
        simp [alUpsert, h1, ih h]

/-! ## filterFold lemmas -/

theorem filterFold_cons (init : List (String × Filter)) (f : Filter)
    (rest : List Filter) :
    filterFold init (f :: rest) = filterFold (alUpsert init f.field f) rest :=
  rfl

theorem filterFold_lookup_isSome (fs : List Filter) :
    ∀ (init : List (String × Filter)) (k : String),
    (alLookup (filterFold init fs) k).isSome ↔
      (alLookup init k).isSome ∨ k ∈ fs.map (·.field) := by
  induction fs with
  | nil => simp [filterFold]
  | cons f rest ih =>
      intro init k
      rw [filterFold_cons, ih, alLookup_isSome_iff, mem_alKeys_alUpsert,
          ← alLookup_isSome_iff, List.map_cons, List.mem_cons]
      tauto

theorem filterFold_lookup_some (fs : List Filter) :
    ∀ (init : List (String × Filter)) (k : String) (f : Filter),
    alLookup (filterFold init fs) k = some f →
      (f ∈ fs ∧ f.field = k) ∨
        (alLookup init k = some f ∧ k ∉ fs.map (·.field)) := by
  induction fs with
  | nil =>
      intro init k f h
      exact Or.inr ⟨by simpa [filterFold] using h, by simp⟩
  | cons f0 rest ih =>
      intro init k f h
      rw [filterFold_cons] at h
      rcases ih _ k f h with h2 | h2
      · exact Or.inl ⟨List.mem_cons_of_mem _ h2.1, h2.2⟩
      · rw [alLookup_alUpsert] at h2
        by_cases hk : k = f0.field
        · rw [if_pos hk] at h2
          obtain rfl : f0 = f := by simpa using h2.1
          exact Or.inl ⟨List.mem_cons_self _ _, hk.symm⟩
        · rw [if_neg hk] at h2
          refine Or.inr ⟨h2.1, ?_⟩
          rw [List.map_cons, List.mem_cons]
          rintro (h3 | h3)
          · exact hk h3
          · exact h2.2 h3

theorem filterFold_keys_nodup (fs : List Filter) :
    ∀ (init : List (String × Filter)), (alKeys init).Nodup →
    (alKeys (filterFold init fs)).Nodup := by
  induction fs with
  | nil => intro init h; simpa [filterFold] using h
  | cons f rest ih =>
      intro init h
      rw [filterFold_cons]
      exact ih _ (alKeys_nodup_alUpsert h)

theorem filterFold_entry_field (fs : List Filter) :
    ∀ (init : List (String × Filter)),
    (∀ p ∈ init, (p.2 : Filter).field = p.1) →
    ∀ p ∈ filterFold init fs, (p.2 : Filter).field = p.1 := by
  induction fs with
  | nil => intro init h; simpa [filterFold] using h
  | cons f rest ih =>
      intro init h
      rw [filterFold_cons]
      refine ih _ ?_
      intro p hp
      rcases mem_alUpsert hp with h2 | h2
      · simp [h2]
      · exact h p h2

theorem filterFold_of_nodup (fs : List Filter) :
    (fs.map (·.field)).Nodup →
    ∀ (init : List (String × Filter)),
    (∀ x ∈ fs, x.field ∉ alKeys init) →
    filterFold init fs = init ++ fs.map fun f => (f.field, f) := by
  induction fs with
  | nil => intro _ init _; simp [filterFold]
  | cons f0 rest ih =>
      intro hnd init hdisj
      rw [List.map_cons, List.nodup_cons] at hnd
      have h0 : f0.field ∉ alKeys init := hdisj f0 (List.mem_cons_self _ _)
      rw [filterFold_cons, alUpsert_append_of_not_mem h0, ih hnd.2 _ ?_]
      · simp
      · intro x hx hmem
        rw [alKeys_append] at hmem
        rcases List.mem_append.1 hmem with h2 | h2
        · exact hdisj x (List.mem_cons_of_mem _ hx) h2
        · have h3 : x.field = f0.field := by simpa [alKeys] using h2
          exact hnd.1 (h3 ▸ List.mem_map_of_mem (·.field) hx)

theorem filterFold_fixed (fs : List Filter) :
    ∀ (m : List (String × Filter)),
    (∀ f ∈ fs, alLookup m f.field = some f) →
    filterFold m fs = m := by
  induction fs with
  | nil => intro m _; simp [filterFold]
  | cons f0 rest ih =>
      intro m h
      rw [filterFold_cons, alUpsert_self (h f0 (List.mem_cons_self _ _))]
      exact ih m fun f hf => h f (List.mem_cons_of_mem _ hf)

theorem lookup_pairs_of_nodup (fs : List Filter)
    (hnd : (fs.map (·.field)).Nodup) :
    ∀ f ∈ fs, alLookup (fs.map fun f => (f.field, f)) f.field = some f := by
  induction fs with
  | nil => simp
  | cons f0 rest ih =>
      rw [List.map_cons, List.nodup_cons] at hnd
      intro f hf
      rcases List.mem_cons.1 hf with h | h
      · subst h
        simp [alLookup]
      · have hne : f0.field ≠ f.field := fun he =>
          hnd.1 (he ▸ List.mem_map_of_mem (·.field) h)
        rw [List.map_cons,
            show alLookup ((f0.field, f0) :: rest.map fun f => (f.field, f))
                f.field = alLookup (rest.map fun f => (f.field, f)) f.field by
              simp [alLookup, hne]]
        exact ih hnd.2 f h

/-! ## Merge-engine helper lemmas -/

theorem pairSetEq_iff (a b : List (AggregateFunction × String)) :
    pairSetEq a b = true ↔ (∀ p, p ∈ a ↔ p ∈ b) := by
  unfold pairSetEq
  rw [Bool.and_eq_true, List.all_eq_true, List.all_eq_true]
  constructor
  · rintro ⟨h1, h2⟩ p
    constructor
    · intro hp; simpa using h1 p hp
    · intro hp; simpa using h2 p hp
  · intro h
    constructor
    · intro p hp; simpa using (h p).1 hp
    · intro p hp; simpa using (h p).2 hp

theorem mergeMetrics_self (m : List Metric) : mergeMetrics m m = m := by
  by_cases h : m = []
  · simp [mergeMetrics, h]
  · have hpe : pairSetEq (m.map fun x => (x.function, x.field))
        (m.map fun x => (x.function, x.field)) = true :=
      (pairSetEq_iff _ _).2 fun _ => Iff.rfl
    simp [mergeMetrics, h, hpe]

theorem mergeDimensionsLoop_of_subset :
    ∀ (delta : List Dimension) (merged : List Dimension)
      (existing : List String),
    (∀ x ∈ delta, x.field ∈ existing) →
    mergeDimensionsLoop merged existing delta = merged := by
  intro delta
  induction delta with
  | nil => intro merged existing _; rfl
  | cons d rest ih =>
      intro merged existing h
      rw [show mergeDimensionsLoop merged existing (d :: rest) =
          mergeDimensionsLoop merged existing rest by
        simp [mergeDimensionsLoop, h d (List.mem_cons_self _ _)]]
      exact ih merged existing fun x hx => h x (List.mem_cons_of_mem _ hx)

theorem mergeDimensions_self (d : List Dimension) : mergeDimensions d d = d := by
  by_cases h : d = []
  · simp [mergeDimensions, h]
  · rw [mergeDimensions, if_neg h]
    exact mergeDimensionsLoop_of_subset d d (d.map (·.field))
      fun x hx => List.mem_map_of_mem (·.field) hx

theorem mergeOrderBy_self (o : List OrderBy) : mergeOrderBy o o = o := by
  unfold mergeOrderBy
  split <;> rfl

theorem mergeFilters_self (f : List Filter)
    (hnd : (f.map (·.field)).Nodup) : mergeFilters f f = f := by
  by_cases h : f = []
  · simp [mergeFilters, h]
  · rw [mergeFilters, if_neg h]
    have h1 : filterFold [] f = f.map fun flt => (flt.field, flt) := by
      have := filterFold_of_nodup f hnd [] (by simp [alKeys_nil])
      simpa using this
    have h2 : filterFold (f.map fun flt => (flt.field, flt)) f =
        f.map fun flt => (flt.field, flt) :=
      filterFold_fixed f _ (lookup_pairs_of_nodup f hnd)
    rw [h1, h2, List.map_map]
    have hcomp : ((fun p : String × Filter => p.2) ∘
        fun flt : Filter => (flt.field, flt)) = id := rfl
    rw [hcomp, List.map_id]

/-! ## Claim C2 -/

/-- C2 counterexample: when the delta's (function, field) pair set equals
the previous one, `_merge_metrics` keeps the previous metrics, so a delta
that only changes an alias is dropped and merged metrics differ from the
delta metrics. -/
theorem mergeAst_metrics_not_always_delta :
    (mergeAst
      { metrics := [{ function := AggregateFunction.sum, field := "revenue",
                      alias_ := some "prev_rev" }] }
      { metrics := [{ function := AggregateFunction.sum, field := "revenue",
                      alias_ := some "delta_rev" }] }).metrics ≠
    [{ function := AggregateFunction.sum, field := "revenue",
       alias_ := some "delta_rev" }] := by
  decide

/-- C2 (amended): for nonempty delta metrics, the merged metrics equal
the delta metrics exactly when the delta's set of (function, field)
pairs differs from the previous set; when the pair sets coincide the
previous metrics (with their aliases and ordering) are kept. -/
theorem mergeAst_metrics_replacement (P D : QueryAST)
    (hne : D.metrics ≠ []) :
    (¬ (∀ p : AggregateFunction × String,
          p ∈ D.metrics.map (fun m => (m.function, m.field)) ↔
          p ∈ P.metrics.map (fun m => (m.function, m.field))) →
        (mergeAst P D).metrics = D.metrics) ∧
    ((∀ p : AggregateFunction × String,
          p ∈ D.metrics.map (fun m => (m.function, m.field)) ↔
          p ∈ P.metrics.map (fun m => (m.function, m.field))) →
        (mergeAst P D).metrics = P.metrics) := by
  constructor
  · intro h
    have hpe : pairSetEq (D.metrics.map fun m => (m.function, m.field))
        (P.metrics.map fun m => (m.function, m.field)) = false := by
      cases hb : pairSetEq (D.metrics.map fun m => (m.function, m.field))
          (P.metrics.map fun m => (m.function, m.field))
      · rfl
      · exact absurd ((pairSetEq_iff _ _).1 hb) h
    show mergeMetrics P.metrics D.metrics = D.metrics
    simp [mergeMetrics, hne, hpe]
  · intro h
    have hpe : pairSetEq (D.metrics.map fun m => (m.function, m.field))
        (P.metrics.map fun m => (m.function, m.field)) = true :=
      (pairSetEq_iff _ _).2 h
    show mergeMetrics P.metrics D.metrics = P.metrics
    simp [mergeMetrics, hne, hpe]

/-- Witness for C2 (amended) at a concrete previous/delta pair whose
metric pair sets differ: the delta wins. -/
theorem mergeAst_metrics_replacement_witness :
    (mergeAst
      { metrics := [{ function := AggregateFunction.sum, field := "quantity" }] }
      { metrics := [{ function := AggregateFunction.avg,
                      field := "unit_price" }] }).metrics =
    [{ function := AggregateFunction.avg, field := "unit_price" }] := by
  refine (mergeAst_metrics_replacement _ _ (by decide)).1 ?_
  intro hall
  have h := (hall (AggregateFunction.avg, "unit_price")).1 (by decide)
  revert h
  decide

/-! ## Claim C3 -/

/-- C3: filter merge is a field-keyed override: the merged filter-field
set is the union of both sides; a merged filter whose field the delta
filters comes from the delta, one whose field the delta does not filter
comes from the previous side unchanged; and the concrete scenario
previous [region = APAC] with delta [region = EMEA] merges to exactly
one filter, region = EMEA. -/
theorem mergeAst_filters_field_keyed_override (P D : QueryAST) :
    (∀ fld, fld ∈ (mergeAst P D).filters.map (·.field) ↔
        (fld ∈ P.filters.map (·.field) ∨ fld ∈ D.filters.map (·.field))) ∧
    (∀ flt ∈ (mergeAst P D).filters,
        (flt.field ∈ D.filters.map (·.field) → flt ∈ D.filters) ∧
        (flt.field ∉ D.filters.map (·.field) → flt ∈ P.filters)) ∧
    ((mergeAst
        { metrics := [{ function := AggregateFunction.sum, field := "quantity" }]
          filters := [{ field := "region", operator := FilterOperator.eq,
                        value := Value.scalar (Scalar.str "APAC") }] }
        { metrics := [{ function := AggregateFunction.sum, field := "quantity" }]
          filters := [{ field := "region", operator := FilterOperator.eq,
                        value := Value.scalar (Scalar.str "EMEA") }] }).filters =
      [{ field := "region", operator := FilterOperator.eq,
         value := Value.scalar (Scalar.str "EMEA") }]) := by
  have hfilters : (mergeAst P D).filters = mergeFilters P.filters D.filters := rfl
  refine ⟨?_, ?_, by decide⟩
  · intro fld
    rw [hfilters]
    by_cases hD : D.filters = []
    · simp [mergeFilters, hD]
    · rw [mergeFilters, if_neg hD]
      have hwf : ∀ p ∈ filterFold (filterFold [] P.filters) D.filters,
          (p.2 : Filter).field = p.1 :=
        filterFold_entry_field D.filters _
          (filterFold_entry_field P.filters [] (by simp))
      have hmapeq :
          (filterFold (filterFold [] P.filters) D.filters).map
              ((·.field) ∘ (·.2)) =
            alKeys (filterFold (filterFold [] P.filters) D.filters) :=
        List.map_congr_left fun p hp => hwf p hp
      rw [List.map_map, hmapeq, ← alLookup_isSome_iff,
          filterFold_lookup_isSome, filterFold_lookup_isSome]
      simp [alLookup]
  · intro flt hmem
    rw [hfilters] at hmem
    by_cases hD : D.filters = []
    · rw [mergeFilters, if_pos hD] at hmem
      constructor
      · intro hin
        rw [hD] at hin
        simp at hin
      · intro _
        exact hmem
    · rw [mergeFilters, if_neg hD] at hmem
      obtain ⟨p, hp, hpe⟩ := List.mem_map.1 hmem
      have hwf : (p.2 : Filter).field = p.1 :=
        filterFold_entry_field D.filters _
          (filterFold_entry_field P.filters [] (by simp)) p hp
      have hnd : (alKeys (filterFold (filterFold [] P.filters)
          D.filters)).Nodup :=
        filterFold_keys_nodup D.filters _
          (filterFold_keys_nodup P.filters [] (by simp [alKeys_nil]))
      have hpair : (p.1, flt) ∈ filterFold (filterFold [] P.filters)
          D.filters := by
        have : p = (p.1, flt) := by
          rw [← hpe]
        exact this ▸ hp
      have hlook : alLookup (filterFold (filterFold [] P.filters) D.filters)
          p.1 = some flt := alLookup_of_mem hnd hpair
      have hfield : flt.field = p.1 := hpe ▸ hwf
      rcases filterFold_lookup_some D.filters _ p.1 flt hlook with h2 | h2
      · constructor
        · intro _
          exact h2.1
        · intro hne
          exact absurd (List.mem_map_of_mem (·.field) h2.1) hne
      · rcases filterFold_lookup_some P.filters [] p.1 flt h2.1 with h3 | h3
        · constructor
          · intro hin
            exact absurd (hfield ▸ hin) h2.2
          · intro _
            exact h3.1
        · rw [alLookup] at h3
          exact absurd h3.1 (by simp)

/-- Witness for C3 at concrete inputs: a field filtered on both sides
takes the delta's filter, and a field filtered only previously survives. -/
theorem mergeAst_filters_field_keyed_override_witness :
    ({ field := "region", operator := FilterOperator.eq,
       value := Value.scalar (Scalar.str "EMEA") } : Filter) ∈
      (mergeAst
        { metrics := [{ function := AggregateFunction.sum, field := "quantity" }]
          filters := [{ field := "segment", operator := FilterOperator.eq,
                        value := Value.scalar (Scalar.str "SMB") },
                      { field := "region", operator := FilterOperator.eq,
                        value := Value.scalar (Scalar.str "APAC") }] }
        { metrics := [{ function := AggregateFunction.sum, field := "quantity" }]
          filters := [{ field := "region", operator := FilterOperator.eq,
                        value := Value.scalar (Scalar.str "EMEA") }] }).filters := by
  have h := (mergeAst_filters_field_keyed_override
    { metrics := [{ function := AggregateFunction.sum, field := "quantity" }]
      filters := [{ field := "segment", operator := FilterOperator.eq,
                    value := Value.scalar (Scalar.str "SMB") },
                  { field := "region", operator := FilterOperator.eq,
                    value := Value.scalar (Scalar.str "APAC") }] }
    { metrics := [{ function := AggregateFunction.sum, field := "quantity" }]
      filters := [{ field := "region", operator := FilterOperator.eq,
                    value := Value.scalar (Scalar.str "EMEA") }] }).1 "region"
  revert h
  decide

/-! ## Claim C4 -/

/-- C4 counterexample: a previous AST whose filters repeat a field is not
preserved by self-merge; the dict-based filter merge collapses the two
region filters into the last one. -/
theorem mergeAst_self_not_identity_on_duplicate_filter_fields :
    (mergeAst
      { metrics := [{ function := AggregateFunction.sum, field := "quantity" }]
        filters := [{ field := "region", operator := FilterOperator.eq,
                      value := Value.scalar (Scalar.str "APAC") },
                    { field := "region", operator := FilterOperator.eq,
                      value := Value.scalar (Scalar.str "EMEA") }] }
      { metrics := [{ function := AggregateFunction.sum, field := "quantity" }]
        filters := [{ field := "region", operator := FilterOperator.eq,
                      value := Value.scalar (Scalar.str "APAC") },
                    { field := "region", operator := FilterOperator.eq,
                      value := Value.scalar (Scalar.str "EMEA") }] }).filters ≠
    [{ field := "region", operator := FilterOperator.eq,
       value := Value.scalar (Scalar.str "APAC") },
     { field := "region", operator := FilterOperator.eq,
       value := Value.scalar (Scalar.str "EMEA") }] := by
  decide

/-- C4 (amended): self-merge is the identity on metrics, dimensions,
filters and order_by for every AST whose filter fields are pairwise
distinct (duplicate-field filters collapse to the last one). -/
theorem mergeAst_self_merge (P : QueryAST)
    (hnd : (P.filters.map (·.field)).Nodup) :
    (mergeAst P P).metrics = P.metrics ∧
    (mergeAst P P).dimensions = P.dimensions ∧
    (mergeAst P P).filters = P.filters ∧
    (mergeAst P P).order_by = P.order_by :=
  ⟨mergeMetrics_self P.metrics, mergeDimensions_self P.dimensions,
   mergeFilters_self P.filters hnd, mergeOrderBy_self P.order_by⟩

/-- Witness for C4 (amended) at a concrete AST with distinct filter
fields. -/
theorem mergeAst_self_merge_witness :
    (mergeAst
      { metrics := [{ function := AggregateFunction.sum, field := "revenue" }]
        dimensions := [{ field := "region" }]
        filters := [{ field := "region", operator := FilterOperator.eq,
                      value := Value.scalar (Scalar.str "APAC") },
                    { field := "segment", operator := FilterOperator.eq,
                      value := Value.scalar (Scalar.str "SMB") }]
        order_by := [{ field := "revenue",
                       direction := OrderDirection.desc }] }
      { metrics := [{ function := AggregateFunction.sum, field := "revenue" }]
        dimensions := [{ field := "region" }]
        filters := [{ field := "region", operator := FilterOperator.eq,
                      value := Value.scalar (Scalar.str "APAC") },
                    { field := "segment", operator := FilterOperator.eq,
                      value := Value.scalar (Scalar.str "SMB") }]
        order_by := [{ field := "revenue",
                       direction := OrderDirection.desc }] }).filters =
    [{ field := "region", operator := FilterOperator.eq,
       value := Value.scalar (Scalar.str "APAC") },
     { field := "segment", operator := FilterOperator.eq,
       value := Value.scalar (Scalar.str "SMB") }] :=
  (mergeAst_self_merge
    { metrics := [{ function := AggregateFunction.sum, field := "revenue" }]
      dimensions := [{ field := "region" }]
      filters := [{ field := "region", operator := FilterOperator.eq,
                    value := Value.scalar (Scalar.str "APAC") },
                  { field := "segment", operator := FilterOperator.eq,
                    value := Value.scalar (Scalar.str "SMB") }]
      order_by := [{ field := "revenue",
                     direction := OrderDirection.desc }] }
    (by decide)).2.2.1

/-! ## Claim C8 -/

/-- C8: whenever the earlier validation stages (metrics, dimensions,
filters, order by) pass, an AST with limit 1000 validates, while limits
1001 and 0 fail with a LimitOutOfRange error. -/
theorem validate_limit_bounds (r : SchemaRegistry) (ast : QueryAST)
    (hm : validateMetrics r ast.metrics = .ok ())
    (hd : validateDimensions r ast.dimensions = .ok ())
    (hf : validateFilters r ast.filters = .ok ())
    (ho : validateOrderBy ast = .ok ()) :
    (ast.limit = 1000 → validate r ast = .ok ()) ∧
    (ast.limit = 1001 →
      validate r ast = .error (ValidationError.limitOutOfRange 1001)) ∧
    (ast.limit = 0 →
      validate r ast = .error (ValidationError.limitOutOfRange 0)) := by
  have hv : validate r ast = validateLimit ast.limit := by
    unfold validate
    rw [hm, hd, hf, ho]
    rfl
  refine ⟨?_, ?_, ?_⟩ <;> intro h <;> rw [hv, h] <;> decide

/-- Witness for C8 at concrete ASTs over the default registry with
limits 1000, 1001 and 0. -/
theorem validate_limit_bounds_witness :
    validate defaultRegistry
      { metrics := [{ function := AggregateFunction.sum, field := "quantity" }]
        limit := 1000 } = .ok () ∧
    validate defaultRegistry
      { metrics := [{ function := AggregateFunction.sum, field := "quantity" }]
        limit := 1001 } =
      .error (ValidationError.limitOutOfRange 1001) ∧
    validate defaultRegistry
      { metrics := [{ function := AggregateFunction.sum, field := "quantity" }]
        limit := 0 } = .error (ValidationError.limitOutOfRange 0) :=
  ⟨(validate_limit_bounds _ _ (by decide) (by decide) (by decide)
      (by decide)).1 rfl,
   (validate_limit_bounds _ _ (by decide) (by decide) (by decide)
      (by decide)).2.1 rfl,
   (validate_limit_bounds _ _ (by decide) (by decide) (by decide)
      (by decide)).2.2 rfl⟩

/-! ## Claim C9 -/

/-- C9: for an AST with exactly two dimensions (and, per the enforced
AST invariant, at least one metric), the inferred visualization is
MULTI_LINE exactly when one of the two dimension fields is date-typed
and the other is not; the date-typed one becomes x and the other the
series, independent of declaration order; when both or neither are
date-typed the result is TABLE; and an unregistered field counts as
non-date rather than erroring. -/
theorem inferVisualization_two_dimensions (ast : QueryAST)
    (r : SchemaRegistry) (d0 d1 : Dimension)
    (hdims : ast.dimensions = [d0, d1]) (hm : ast.metrics ≠ []) :
    ((inferVisualization ast r).type = VisualizationType.multiLine ↔
        isDateField d0.field r ≠ isDateField d1.field r) ∧
    (isDateField d0.field r = true → isDateField d1.field r = false →
        inferVisualization ast r =
          { type := VisualizationType.multiLine, x := some (dimensionName d0)
            y := getMetricName ast, series := some (dimensionName d1) }) ∧
    (isDateField d1.field r = true → isDateField d0.field r = false →
        inferVisualization ast r =
          { type := VisualizationType.multiLine, x := some (dimensionName d1)
            y := getMetricName ast, series := some (dimensionName d0) }) ∧
    (isDateField d0.field r = isDateField d1.field r →
        (inferVisualization ast r).type = VisualizationType.table) ∧
    (∀ f, r.getField f = none → isDateField f r = false) := by
  have hlen : ¬ ast.metrics.length = 0 := fun h => hm (List.length_eq_zero.1 h)
  refine ⟨?_, ?_, ?_, ?_, ?_⟩
  · cases hb0 : isDateField d0.field r <;>
      cases hb1 : isDateField d1.field r <;>
      simp [inferVisualization, hdims, hlen, hb0, hb1]
  · intro hb0 hb1
    simp [inferVisualization, hdims, hlen, hb0, hb1]
  · intro hb1 hb0
    simp [inferVisualization, hdims, hlen, hb0, hb1]
  · intro heq
    cases hb0 : isDateField d0.field r <;> rw [hb0] at heq <;>
      simp [inferVisualization, hdims, hlen, hb0, ← heq]
  · intro f hf
    simp [isDateField, hf]

/-- Witness for C9 at a concrete AST whose categorical dimension is
declared first: the date dimension still becomes x. -/
theorem inferVisualization_two_dimensions_witness :
    inferVisualization
      { metrics := [{ function := AggregateFunction.sum, field := "revenue" }]
        dimensions := [{ field := "region" }, { field := "order_date" }] }
      defaultRegistry =
    { type := VisualizationType.multiLine, x := some "order_date"
      y := some "sum_revenue", series := some "region" } := by
  have h := (inferVisualization_two_dimensions
      { metrics := [{ function := AggregateFunction.sum, field := "revenue" }]
        dimensions := [{ field := "region" }, { field := "order_date" }] }
      defaultRegistry { field := "region" } { field := "order_date" }
      rfl (by decide)).2.2.1 (by decide) (by decide)
  exact h.trans rfl

/-! ## Claim C10 -/

/-- C10: the inferred visualization depends only on the AST's metrics
and dimensions (plus the registry); filters, order_by and limit cannot
influence it. -/
theorem inferVisualization_depends_only_on_metrics_and_dimensions
    (a1 a2 : QueryAST) (r : SchemaRegistry)
    (hm : a1.metrics = a2.metrics) (hd : a1.dimensions = a2.dimensions) :
    inferVisualization a1 r = inferVisualization a2 r := by
  obtain ⟨m1, d1, f1, o1, l1⟩ := a1
  obtain ⟨m2, d2, f2, o2, l2⟩ := a2
  simp only at hm hd
  subst hm
  subst hd
  rfl

/-- Witness for C10 at two concrete ASTs with identical metrics and
dimensions but different filters, order_by and limit. -/
theorem inferVisualization_depends_only_witness :
    inferVisualization
      { metrics := [{ function := AggregateFunction.sum, field := "revenue" }]
        dimensions := [{ field := "region" }]
        filters := [{ field := "region", operator := FilterOperator.eq,
                      value := Value.scalar (Scalar.str "APAC") }]
        limit := 10 }
      defaultRegistry =
    inferVisualization
      { metrics := [{ function := AggregateFunction.sum, field := "revenue" }]
        dimensions := [{ field := "region" }]
        order_by := [{ field := "revenue", direction := OrderDirection.asc }]
        limit := 500 }
      defaultRegistry :=
  inferVisualization_depends_only_on_metrics_and_dimensions _ _ _ rfl rfl

/-! ## Concrete fixtures for witnesses -/

/-- SQLAlchemy Table object for orders, with the physical columns of
the Order db model. -/
def ordersSQLTable : SQLTable :=
  { name := "orders"
    columns := ["order_id", "customer_id", "product_id", "order_date",
                "quantity", "unit_price", "region"] }

def productsSQLTable : SQLTable :=
  { name := "products"
    columns := ["product_id", "product_line", "category"] }

def customersSQLTable : SQLTable :=
  { name := "customers"
    columns := ["customer_id", "segment", "country"] }

/-- The sqlalchemy_tables dict handed to SQLCompiler. -/
def defaultSQLTables : List (String × SQLTable) :=
  [("orders", ordersSQLTable), ("products", productsSQLTable),
   ("customers", customersSQLTable)]

/-! ## Claim C5 -/

/-- C5: when resolve succeeds, the plan's base table is the table of the
first metric in declaration order (a derived-metric field resolving to
its declared base table), and with at least one metric the first-metric
access can never raise the index error. -/
theorem resolve_base_table_first_metric (r : SchemaRegistry)
    (ast : QueryAST) (plan : JoinPlan) (m : Metric) (ms : List Metric)
    (hm : ast.metrics = m :: ms) (hok : resolve r ast = .ok plan) :
    fieldToTable r m.field = .ok plan.base_table ∧
    (∀ dm, r.getDerivedMetric m.field = some dm →
        plan.base_table = dm.base_table) ∧
    determineBaseTable r ast ≠ .error JoinResolutionError.indexError := by
  have hbase : determineBaseTable r ast = fieldToTable r m.field := by
    unfold determineBaseTable
    rw [hm]
  unfold resolve at hok
  cases h1 : collectRequiredTables r ast with
  | error e =>
      rw [h1] at hok
      exact Except.noConfusion hok
  | ok required =>
      rw [h1] at hok
      cases h2 : determineBaseTable r ast with
      | error e =>
          rw [h2] at hok
          exact Except.noConfusion hok
      | ok base =>
          rw [h2] at hok
          have hok2 : (resolveJoinsLoop r base required).bind
              (fun joins =>
                Except.ok { base_table := base, joins := joins }) =
              Except.ok plan := hok
          cases h3 : resolveJoinsLoop r base required with
          | error e =>
              rw [h3] at hok2
              exact Except.noConfusion hok2
          | ok joins =>
              rw [h3] at hok2
              have hplan : plan = { base_table := base, joins := joins } :=
                (Except.ok.inj hok2).symm
              have hft : fieldToTable r m.field = .ok base := hbase ▸ h2
              refine ⟨?_, ?_, ?_⟩
              · rw [hplan]
                exact hft
              · intro dm hdm
                rw [hplan]
                unfold fieldToTable at hft
                rw [hdm] at hft
                simpa using (Except.ok.inj hft).symm
              · exact fun he => Except.noConfusion he

/-- Witness for C5: a derived-metric query over the default registry
resolves with base table orders, the declared base table of revenue. -/
theorem resolve_base_table_first_metric_witness :
    fieldToTable defaultRegistry "revenue" = .ok "orders" ∧
    determineBaseTable defaultRegistry
      { metrics := [{ function := AggregateFunction.sum, field := "revenue" }]
        dimensions := [{ field := "product_line" }] } ≠
      .error JoinResolutionError.indexError := by
  have h := resolve_base_table_first_metric defaultRegistry
    { metrics := [{ function := AggregateFunction.sum, field := "revenue" }]
      dimensions := [{ field := "product_line" }] }
    { base_table := "orders"
      joins := [{ left_table := "orders", right_table := "products"
                  left_key := "product_id", right_key := "product_id"
                  join_type := JoinType.left }] }
    { function := AggregateFunction.sum, field := "revenue" } [] rfl
    (by decide)
  exact ⟨h.1, h.2.2⟩

/-! ## Claim C7 -/

theorem columnAccess_ok {t : SQLTable} {c : String} {e : SQLExpr}
    (h : columnAccess t c = .ok e) :
    c ∈ t.columns ∧ e = SQLExpr.col t.name c := by
  unfold columnAccess at h
  split at h
  · exact ⟨by assumption, (Except.ok.inj h).symm⟩
  · exact absurd h (by simp)

/-- C7 counterexample: the derived-metric expression "quantity" is a
bare column, not a split on one binary operator into two operands, yet
it compiles successfully rather than being rejected. -/
theorem parseExpression_single_column_accepted :
    parseExpression "quantity" ordersSQLTable =
      .ok (SQLExpr.col "orders" "quantity") ∧
    pySplit (pyStrip "quantity") " * " = ["quantity"] ∧
    pySplit (pyStrip "quantity") " / " = ["quantity"] ∧
    pySplit (pyStrip "quantity") " + " = ["quantity"] ∧
    pySplit (pyStrip "quantity") " - " = ["quantity"] := by
  decide

/-- C7 (amended): a derived-metric expression compiles successfully only
if it either splits on one of the supported binary operators (tried in
the order *, /, +, -, space-surrounded) into exactly two stripped column
names of the base table, or is itself, after stripping, a single bare
column name of the base table; every other expression is rejected with
an error. -/
theorem parseExpression_success_shapes (expression : String) (t : SQLTable)
    (e : SQLExpr) (hok : parseExpression expression t = .ok e) :
    (∃ sep a b, sep ∈ ([" * ", " / ", " + ", " - "] : List String) ∧
        pySplit (pyStrip expression) sep = [a, b] ∧
        pyStrip a ∈ t.columns ∧ pyStrip b ∈ t.columns) ∨
    pyStrip expression ∈ t.columns := by
  unfold parseExpression at hok
  dsimp only at hok
  split at hok
  case _ a b heq =>
    cases hca : columnAccess t (pyStrip a) with
    | error e1 => rw [hca] at hok; simp [Except.bind] at hok
    | ok lc =>
        cases hcb : columnAccess t (pyStrip b) with
        | error e1 => rw [hca, hcb] at hok; simp [Except.bind, Except.map] at hok
        | ok rc =>
            exact Or.inl ⟨" * ", a, b, by simp, heq,
              (columnAccess_ok hca).1, (columnAccess_ok hcb).1⟩
  case _ =>
    split at hok
    case _ a b heq =>
      cases hca : columnAccess t (pyStrip a) with
      | error e1 => rw [hca] at hok; simp [Except.bind] at hok
      | ok lc =>
          cases hcb : columnAccess t (pyStrip b) with
          | error e1 =>
              rw [hca, hcb] at hok; simp [Except.bind, Except.map] at hok
          | ok rc =>
              exact Or.inl ⟨" / ", a, b, by simp, heq,
                (columnAccess_ok hca).1, (columnAccess_ok hcb).1⟩
    case _ =>
      split at hok
      case _ a b heq =>
        cases hca : columnAccess t (pyStrip a) with
        | error e1 => rw [hca] at hok; simp [Except.bind] at hok
        | ok lc =>
            cases hcb : columnAccess t (pyStrip b) with
            | error e1 =>
                rw [hca, hcb] at hok; simp [Except.bind, Except.map] at hok
            | ok rc =>
                exact Or.inl ⟨" + ", a, b, by simp, heq,
                  (columnAccess_ok hca).1, (columnAccess_ok hcb).1⟩
      case _ =>
        split at hok
        case _ a b heq =>
          cases hca : columnAccess t (pyStrip a) with
          | error e1 => rw [hca] at hok; simp [Except.bind] at hok
          | ok lc =>
              cases hcb : columnAccess t (pyStrip b) with
              | error e1 =>
                  rw [hca, hcb] at hok; simp [Except.bind, Except.map] at hok
              | ok rc =>
                  exact Or.inl ⟨" - ", a, b, by simp, heq,
                    (columnAccess_ok hca).1, (columnAccess_ok hcb).1⟩
        case _ =>
          split at hok
          · exact Or.inr (by assumption)
          · exact absurd hok (by simp)

/-- Witness for C7 (amended) at the default derived expression. -/
theorem parseExpression_success_shapes_witness :
    (∃ sep a b, sep ∈ ([" * ", " / ", " + ", " - "] : List String) ∧
        pySplit (pyStrip "quantity * unit_price") sep = [a, b] ∧
        pyStrip a ∈ ordersSQLTable.columns ∧
        pyStrip b ∈ ordersSQLTable.columns) ∨
    pyStrip "quantity * unit_price" ∈ ordersSQLTable.columns :=
  parseExpression_success_shapes "quantity * unit_price" ordersSQLTable
    (SQLExpr.mul (SQLExpr.col "orders" "quantity")
      (SQLExpr.col "orders" "unit_price"))
    (by decide)

/-! ## Claim C6 -/

/-- Every JoinMeta found in the join graph was stored under exactly its
two endpoint tables. -/
def graphPairCond (g : List (String × List (String × JoinMeta))) : Prop :=
  ∀ (a b : String) (jm : JoinMeta)
    (inner_map : List (String × JoinMeta)),
    alLookup g a = some inner_map → alLookup inner_map b = some jm →
    (jm.left_table = a ∧ jm.right_table = b) ∨
      (jm.left_table = b ∧ jm.right_table = a)

theorem graphPairCond_step (g : List (String × List (String × JoinMeta)))
    (j : JoinMeta) (hg : graphPairCond g) :
    graphPairCond
      (alUpsert
        (alUpsert g j.left_table
          (alUpsert ((alLookup g j.left_table).getD []) j.right_table j))
        j.right_table
        (alUpsert
          ((alLookup
              (alUpsert g j.left_table
                (alUpsert ((alLookup g j.left_table).getD [])
                  j.right_table j))
              j.right_table).getD [])
          j.left_table j)) := by
  intro a b jm inner hmap hinner
  rw [alLookup_alUpsert] at hmap
  by_cases ha : a = j.right_table
  · rw [if_pos ha] at hmap
    obtain rfl := Option.some.inj hmap
    rw [alLookup_alUpsert] at hinner
    by_cases hb : b = j.left_table
    · rw [if_pos hb] at hinner
      obtain rfl := Option.some.inj hinner
      exact Or.inr ⟨hb.symm, ha.symm⟩
    · rw [if_neg hb] at hinner
      rw [alLookup_alUpsert] at hinner
      by_cases hrl : j.right_table = j.left_table
      · rw [if_pos hrl] at hinner
        simp only [Option.getD_some] at hinner
        rw [alLookup_alUpsert] at hinner
        by_cases hb2 : b = j.right_table
        · exact absurd (hb2.trans hrl) hb
        · rw [if_neg hb2] at hinner
          cases hg0 : alLookup g j.left_table with
          | none => rw [hg0] at hinner; simp [alLookup] at hinner
          | some m0 =>
              rw [hg0] at hinner
              simp only [Option.getD_some] at hinner
              rcases hg j.left_table b jm m0 hg0 hinner with h2 | h2
              · exact Or.inl ⟨ha ▸ hrl ▸ h2.1, h2.2⟩
              · exact Or.inr ⟨h2.1, ha ▸ hrl ▸ h2.2⟩
      · rw [if_neg hrl] at hinner
        cases hgr : alLookup g j.right_table with
        | none => rw [hgr] at hinner; simp [alLookup] at hinner
        | some m0 =>
            rw [hgr] at hinner
            simp only [Option.getD_some] at hinner
            rcases hg j.right_table b jm m0 hgr hinner with h2 | h2
            · exact Or.inl ⟨ha ▸ h2.1, h2.2⟩
            · exact Or.inr ⟨h2.1, ha ▸ h2.2⟩
  · rw [if_neg ha] at hmap
    rw [alLookup_alUpsert] at hmap
    by_cases hal : a = j.left_table
    · rw [if_pos hal] at hmap
      obtain rfl := Option.some.inj hmap
      rw [alLookup_alUpsert] at hinner
      by_cases hb : b = j.right_table
      · rw [if_pos hb] at hinner
        obtain rfl := Option.some.inj hinner
        exact Or.inl ⟨hal.symm, hb.symm⟩
      · rw [if_neg hb] at hinner
        cases hg0 : alLookup g j.left_table with
        | none => rw [hg0] at hinner; simp [alLookup] at hinner
        | some m0 =>
            rw [hg0] at hinner
            simp only [Option.getD_some] at hinner
            rcases hg j.left_table b jm m0 hg0 hinner with h2 | h2
            · exact Or.inl ⟨hal ▸ h2.1, h2.2⟩
            · exact Or.inr ⟨h2.1, hal ▸ h2.2⟩
    · rw [if_neg hal] at hmap
      exact hg a b jm inner hmap hinner

theorem buildJoinGraph_pairCond (joins : List JoinMeta) :
    graphPairCond (buildJoinGraph joins) := by
  have hgen : ∀ (js : List JoinMeta)
      (g : List (String × List (String × JoinMeta))),
      graphPairCond g →
      graphPairCond
        (js.foldl
          (fun g j =>
            let g1 := alUpsert g j.left_table
              (alUpsert ((alLookup g j.left_table).getD []) j.right_table j)
            alUpsert g1 j.right_table
              (alUpsert ((alLookup g1 j.right_table).getD [])
                j.left_table j))
          g) := by
    intro js
    induction js with
    | nil => intro g hg; exact hg
    | cons j rest ih =>
        intro g hg
        exact ih _ (graphPairCond_step g j hg)
  exact hgen joins [] fun a b jm inner hmap _ => by
    simp [alLookup] at hmap

theorem getJoin_pair (r : SchemaRegistry) (a b : String) (jm : JoinMeta)
    (h : r.getJoin a b = some jm) :
    (jm.left_table = a ∧ jm.right_table = b) ∨
      (jm.left_table = b ∧ jm.right_table = a) := by
  unfold SchemaRegistry.getJoin at h
  split at h
  case _ inner heq => exact buildJoinGraph_pairCond r.joins a b jm inner heq h
  case _ => exact Option.noConfusion h

theorem findJoin_some (r : SchemaRegistry) (base t : String) (s : JoinStep)
    (h : findJoin r base t = some s) :
    ∃ jm, r.getJoin base t = some jm ∧
      ((jm.left_table = base ∧
          s = { left_table := jm.left_table, right_table := jm.right_table
                left_key := jm.left_key, right_key := jm.right_key
                join_type := jm.join_type }) ∨
       (¬ jm.left_table = base ∧
          s = { left_table := jm.right_table, right_table := jm.left_table
                left_key := jm.right_key, right_key := jm.left_key
                join_type := jm.join_type })) := by
  unfold findJoin at h
  split at h
  case _ => exact Option.noConfusion h
  case _ jm heq =>
      refine ⟨jm, heq, ?_⟩
      split at h
      case _ hl => exact Or.inl ⟨hl, (Option.some.inj h).symm⟩
      case _ hl => exact Or.inr ⟨hl, (Option.some.inj h).symm⟩

theorem findJoin_none (r : SchemaRegistry) (base t : String)
    (h : r.getJoin base t = none) : findJoin r base t = none := by
  unfold findJoin
  rw [h]

theorem resolveJoinsLoop_mem (r : SchemaRegistry) (base : String) :
    ∀ (ts : List String) (js : List JoinStep),
    resolveJoinsLoop r base ts = .ok js →
    ∀ s ∈ js, ∃ t, t ∈ ts ∧ t ≠ base ∧ findJoin r base t = some s := by
  intro ts
  induction ts with
  | nil =>
      intro js h s hs
      obtain rfl : ([] : List JoinStep) = js := Except.ok.inj h
      simp at hs
  | cons t1 rest ih =>
      intro js h s hs
      by_cases hb : t1 = base
      · rw [show resolveJoinsLoop r base (t1 :: rest) =
            resolveJoinsLoop r base rest by
          simp [resolveJoinsLoop, hb]] at h
        obtain ⟨t, ht, htb, hf⟩ := ih js h s hs
        exact ⟨t, List.mem_cons_of_mem _ ht, htb, hf⟩
      · cases hfj : findJoin r base t1 with
        | none =>
            rw [show resolveJoinsLoop r base (t1 :: rest) =
                .error (.noJoinPath base t1) by
              simp [resolveJoinsLoop, hb, hfj]] at h
            exact Except.noConfusion h
        | some j =>
            rw [show resolveJoinsLoop r base (t1 :: rest) =
                (resolveJoinsLoop r base rest).map (j :: ·) by
              simp [resolveJoinsLoop, hb, hfj]] at h
            cases hrec : resolveJoinsLoop r base rest with
            | error e => rw [hrec] at h; exact Except.noConfusion h
            | ok js0 =>
                rw [hrec] at h
                obtain rfl : j :: js0 = js := Except.ok.inj h
                rcases List.mem_cons.1 hs with h2 | h2
                · exact ⟨t1, List.mem_cons_self _ _, hb, h2 ▸ hfj⟩
                · obtain ⟨t, ht, htb, hf⟩ := ih js0 hrec s h2
                  exact ⟨t, List.mem_cons_of_mem _ ht, htb, hf⟩

theorem resolveJoinsLoop_fails (r : SchemaRegistry) (base t : String)
    (hne : t ≠ base) (hnoj : findJoin r base t = none) :
    ∀ ts : List String, t ∈ ts →
    ∃ t0, resolveJoinsLoop r base ts = .error (.noJoinPath base t0) := by
  intro ts
  induction ts with
  | nil => intro h; simp at h
  | cons t1 rest ih =>
      intro hmem
      by_cases hb : t1 = base
      · have ht : t ∈ rest := by
          rcases List.mem_cons.1 hmem with h2 | h2
          · exact absurd (h2.trans hb) hne
          · exact h2
        obtain ⟨t0, h0⟩ := ih ht
        exact ⟨t0, by
          rw [show resolveJoinsLoop r base (t1 :: rest) =
              resolveJoinsLoop r base rest by
            simp [resolveJoinsLoop, hb]]
          exact h0⟩
      · cases hfj : findJoin r base t1 with
        | none =>
            exact ⟨t1, by simp [resolveJoinsLoop, hb, hfj]⟩
        | some j =>
            have ht : t ∈ rest := by
              rcases List.mem_cons.1 hmem with h2 | h2
              · rw [h2] at hnoj
                rw [hnoj] at hfj
                exact Option.noConfusion hfj
              · exact h2
            obtain ⟨t0, h0⟩ := ih ht
            refine ⟨t0, ?_⟩
            rw [show resolveJoinsLoop r base (t1 :: rest) =
                (resolveJoinsLoop r base rest).map (j :: ·) by
              simp [resolveJoinsLoop, hb, hfj], h0]
            rfl

/-- C6: whenever resolve succeeds, every emitted JoinStep has the plan's
base table on the left, taking the stored JoinMeta as-is when it was
declared with the base table on the left and with keys swapped when the
base table was on the right; and whenever some required table other than
the base has no direct join edge to the base table, resolve fails with a
no-path error. -/
theorem resolve_join_direction_and_no_path (r : SchemaRegistry)
    (ast : QueryAST) :
    (∀ plan, resolve r ast = .ok plan →
      ∀ s ∈ plan.joins,
        s.left_table = plan.base_table ∧
        ∃ jm, r.getJoin plan.base_table s.right_table = some jm ∧
          ((jm.left_table = plan.base_table ∧
              s = { left_table := jm.left_table
                    right_table := jm.right_table
                    left_key := jm.left_key, right_key := jm.right_key
                    join_type := jm.join_type }) ∨
           (¬ jm.left_table = plan.base_table ∧
              jm.right_table = plan.base_table ∧
              s = { left_table := jm.right_table
                    right_table := jm.left_table
                    left_key := jm.right_key, right_key := jm.left_key
                    join_type := jm.join_type }))) ∧
    (∀ required base t, collectRequiredTables r ast = .ok required →
        determineBaseTable r ast = .ok base →
        t ∈ required → t ≠ base → r.getJoin base t = none →
        ∃ t0, resolve r ast =
          .error (JoinResolutionError.noJoinPath base t0)) := by
  constructor
  · intro plan hok s hs
    unfold resolve at hok
    cases h1 : collectRequiredTables r ast with
    | error e => rw [h1] at hok; exact Except.noConfusion hok
    | ok required =>
        rw [h1] at hok
        cases h2 : determineBaseTable r ast with
        | error e => rw [h2] at hok; exact Except.noConfusion hok
        | ok base =>
            rw [h2] at hok
            have hok2 : (resolveJoinsLoop r base required).bind
                (fun joins =>
                  Except.ok { base_table := base, joins := joins }) =
                Except.ok plan := hok
            cases h3 : resolveJoinsLoop r base required with
            | error e => rw [h3] at hok2; exact Except.noConfusion hok2
            | ok joins =>
                rw [h3] at hok2
                obtain rfl : ({ base_table := base, joins := joins } :
                    JoinPlan) = plan := Except.ok.inj hok2
                obtain ⟨t, ht, htb, hf⟩ :=
                  resolveJoinsLoop_mem r base required joins h3 s hs
                obtain ⟨jm, hjm, hcase⟩ := findJoin_some r base t s hf
                rcases hcase with ⟨hl, hstep⟩ | ⟨hl, hstep⟩
                · -- stored edge taken as-is: base is the stored left
                  have hrt : jm.right_table = t := by
                    rcases getJoin_pair r base t jm hjm with hp | hp
                    · exact hp.2
                    · exact absurd (hp.1.symm.trans hl) htb
                  refine ⟨by rw [hstep]; exact hl, jm, ?_,
                    Or.inl ⟨hl, hstep⟩⟩
                  rw [hstep]
                  show r.getJoin base jm.right_table = some jm
                  rw [hrt]
                  exact hjm
                · -- stored edge reversed: base is the stored right
                  have hp : jm.left_table = t ∧ jm.right_table = base := by
                    rcases getJoin_pair r base t jm hjm with hp | hp
                    · exact absurd hp.1 hl
                    · exact hp
                  refine ⟨by rw [hstep]; exact hp.2, jm, ?_,
                    Or.inr ⟨hl, hp.2, hstep⟩⟩
                  rw [hstep]
                  show r.getJoin base jm.left_table = some jm
                  rw [hp.1]
                  exact hjm
  · intro required base t h1 h2 hmem hne hnone
    obtain ⟨t0, hloop⟩ :=
      resolveJoinsLoop_fails r base t hne (findJoin_none r base t hnone)
        required hmem
    refine ⟨t0, ?_⟩
    unfold resolve
    rw [h1, h2]
    show (resolveJoinsLoop r base required).bind
        (fun joins =>
          (Except.ok { base_table := base, joins := joins } :
            Except JoinResolutionError JoinPlan)) =
      Except.error (JoinResolutionError.noJoinPath base t0)
    rw [hloop]
    rfl

/-- Witness for C6 at a concrete query over the default registry whose
customers edge is stored with the base table orders on the left. -/
theorem resolve_join_direction_witness :
    ({ left_table := "orders", right_table := "customers"
       left_key := "customer_id", right_key := "customer_id"
       join_type := JoinType.left } : JoinStep).left_table =
      ({ base_table := "orders"
         joins := [{ left_table := "orders", right_table := "customers"
                     left_key := "customer_id", right_key := "customer_id"
                     join_type := JoinType.left }] } : JoinPlan).base_table ∧
    ∃ jm, defaultRegistry.getJoin "orders" "customers" = some jm := by
  have h := (resolve_join_direction_and_no_path defaultRegistry
    { metrics := [{ function := AggregateFunction.sum, field := "quantity" }]
      dimensions := [{ field := "segment" }] }).1
    { base_table := "orders"
      joins := [{ left_table := "orders", right_table := "customers"
                  left_key := "customer_id", right_key := "customer_id"
                  join_type := JoinType.left }] }
    (by decide)
    { left_table := "orders", right_table := "customers"
      left_key := "customer_id", right_key := "customer_id"
      join_type := JoinType.left }
    (by decide)
  exact ⟨h.1, h.2.elim fun jm hjm => ⟨jm, hjm.1⟩⟩

/-! ## Claim C1 -/

theorem resolveColumn_spec (r : SchemaRegistry)
    (tables : List (String × SQLTable)) (fname : String) (fm : FieldMeta)
    (c0 : SQLExpr) (hfm : r.getField fname = some fm)
    (hok : resolveColumn r tables fname = .ok c0) :
    ∃ t, tableLookup tables fm.table = .ok t ∧ fm.column ∈ t.columns ∧
      c0 = SQLExpr.col t.name fm.column := by
  unfold resolveColumn at hok
  have htc : fieldToTableColumn r fname = .ok (fm.table, fm.column) := by
    unfold fieldToTableColumn
    rw [hfm]
  rw [htc] at hok
  have hok2 : (tableLookup tables fm.table).bind
      (fun t => columnAccess t fm.column) = .ok c0 := hok
  cases htl : tableLookup tables fm.table with
  | error e => rw [htl] at hok2; exact Except.noConfusion hok2
  | ok t =>
      rw [htl] at hok2
      have hok3 : columnAccess t fm.column = .ok c0 := hok2
      obtain ⟨hmem, hc⟩ := columnAccess_ok hok3
      exact ⟨t, rfl, hmem, hc⟩

theorem resolveDimensionColumn_trunc (r : SchemaRegistry)
    (tables : List (String × SQLTable)) (fname : String) (fm : FieldMeta)
    (g : String) (c : SQLExpr) (hfm : r.getField fname = some fm)
    (hg : optTruthy fm.date_trunc = some g)
    (hok : resolveDimensionColumn r tables fname = .ok c) :
    ∃ t, tableLookup tables fm.table = .ok t ∧
      c = SQLExpr.dateTrunc g (SQLExpr.col t.name fm.column) := by
  unfold resolveDimensionColumn at hok
  cases hrc : resolveColumn r tables fname with
  | error e => rw [hrc] at hok; exact Except.noConfusion hok
  | ok c0 =>
      rw [hrc] at hok
      have hok2 : (match r.getField fname with
          | some fm2 =>
              match optTruthy fm2.date_trunc with
              | some g2 =>
                  (Except.ok (SQLExpr.dateTrunc g2 c0) :
                    Except CompileError SQLExpr)
              | none => Except.ok c0
          | none => Except.ok c0) = Except.ok c := hok
      rw [hfm] at hok2
      have hok3 : (match optTruthy fm.date_trunc with
          | some g2 =>
              (Except.ok (SQLExpr.dateTrunc g2 c0) :
                Except CompileError SQLExpr)
          | none => Except.ok c0) = Except.ok c := hok2
      rw [hg] at hok3
      have hok4 : (Except.ok (SQLExpr.dateTrunc g c0) :
          Except CompileError SQLExpr) = Except.ok c := hok3
      obtain rfl := Except.ok.inj hok4
      obtain ⟨t, htl, _, hc0⟩ :=
        resolveColumn_spec r tables fname fm c0 hfm hrc
      exact ⟨t, htl, by rw [hc0]⟩

theorem compileDimensions_spec (r : SchemaRegistry)
    (tables : List (String × SQLTable)) :
    ∀ (dims : List Dimension) (sels gbs : List SQLExpr),
    compileDimensions r tables dims = .ok (sels, gbs) →
    sels.length = dims.length ∧ gbs.length = dims.length ∧
    ∀ i d, dims.get? i = some d →
      ∃ c, resolveDimensionColumn r tables d.field = .ok c ∧
        gbs.get? i = some c ∧
        sels.get? i = some (match optTruthy d.alias_ with
                            | some a => SQLExpr.label a c
                            | none => c) := by
  intro dims
  induction dims with
  | nil =>
      intro sels gbs h
      have h2 : (([], []) : List SQLExpr × List SQLExpr) = (sels, gbs) :=
        Except.ok.inj h
      have hsels : ([] : List SQLExpr) = sels := congrArg Prod.fst h2
      have hgbs : ([] : List SQLExpr) = gbs := congrArg Prod.snd h2
      subst hsels
      subst hgbs
      refine ⟨rfl, rfl, ?_⟩
      intro i d hd
      simp at hd
  | cons dim rest ih =>
      intro sels gbs h
      unfold compileDimensions at h
      cases hc : resolveDimensionColumn r tables dim.field with
      | error e => rw [hc] at h; exact Except.noConfusion h
      | ok c =>
          rw [hc] at h
          cases hrest : compileDimensions r tables rest with
          | error e => rw [hrest] at h; exact Except.noConfusion h
          | ok sg =>
              rw [hrest] at h
              have h2 : (((match optTruthy dim.alias_ with
                  | some a => SQLExpr.label a c
                  | none => c) :: sg.1, c :: sg.2) :
                  List SQLExpr × List SQLExpr) = (sels, gbs) :=
                Except.ok.inj h
              have hsels : (match optTruthy dim.alias_ with
                  | some a => SQLExpr.label a c
                  | none => c) :: sg.1 = sels := congrArg Prod.fst h2
              have hgbs : c :: sg.2 = gbs := congrArg Prod.snd h2
              subst hsels
              subst hgbs
              have hrest2 : compileDimensions r tables rest =
                  .ok (sg.1, sg.2) := hrest
              obtain ⟨hl1, hl2, hidx⟩ := ih sg.1 sg.2 hrest2
              refine ⟨by simp [hl1], by simp [hl2], ?_⟩
              intro i d hd
              cases i with
              | zero =>
                  obtain rfl : dim = d := by simpa using hd
                  exact ⟨c, hc, rfl, rfl⟩
              | succ n =>
                  simp only [List.get?_cons_succ] at hd ⊢
                  exact hidx n d hd

/-- C1: when compilation succeeds and the i-th dimension's field has a
(truthy) configured truncation granularity, the GROUP BY entry at
position i is the truncated expression date_trunc(granularity, column),
the same expression the SELECT list carries for that dimension (up to
the alias label), and that GROUP BY entry is not the bare column. -/
theorem compile_groupBy_uses_truncated_dimension (r : SchemaRegistry)
    (tables : List (String × SQLTable)) (ast : QueryAST) (plan : JoinPlan)
    (stmt : Statement) (hok : compile r tables ast plan = .ok stmt)
    (i : Nat) (d : Dimension) (fm : FieldMeta) (g : String)
    (hd : ast.dimensions.get? i = some d)
    (hfm : r.getField d.field = some fm)
    (hg : optTruthy fm.date_trunc = some g) :
    ∃ t, tableLookup tables fm.table = .ok t ∧
      stmt.groupBy.get? i =
        some (SQLExpr.dateTrunc g (SQLExpr.col t.name fm.column)) ∧
      stmt.selectColumns.get? i =
        some (match optTruthy d.alias_ with
              | some a => SQLExpr.label a
                  (SQLExpr.dateTrunc g (SQLExpr.col t.name fm.column))
              | none =>
                  SQLExpr.dateTrunc g (SQLExpr.col t.name fm.column)) ∧
      stmt.groupBy.get? i ≠ some (SQLExpr.col t.name fm.column) := by
  unfold compile at hok
  cases h1 : tableLookup tables plan.base_table with
  | error e => rw [h1] at hok; exact Except.noConfusion hok
  | ok base0 =>
  rw [h1] at hok
  cases h2 : applyJoins tables (FromClause.table plan.base_table)
      plan.joins with
  | error e => rw [h2] at hok; exact Except.noConfusion hok
  | ok fc =>
  rw [h2] at hok
  cases h3 : compileDimensions r tables ast.dimensions with
  | error e => rw [h3] at hok; exact Except.noConfusion hok
  | ok dims2 =>
  rw [h3] at hok
  cases h4 : compileMetrics r tables ast.metrics with
  | error e => rw [h4] at hok; exact Except.noConfusion hok
  | ok mcols =>
  rw [h4] at hok
  cases h5 : compileFilters r tables ast.filters with
  | error e => rw [h5] at hok; exact Except.noConfusion hok
  | ok wcl =>
  rw [h5] at hok
  cases h6 : compileOrderBys r tables ast ast.order_by with
  | error e => rw [h6] at hok; exact Except.noConfusion hok
  | ok ocols =>
  rw [h6] at hok
  have hstmt : ({ selectColumns := dims2.1 ++ mcols, fromClause := fc
                  whereClauses := wcl, groupBy := dims2.2, orderBy := ocols
                  limit := ast.limit } : Statement) = stmt :=
    Except.ok.inj hok
  have h3b : compileDimensions r tables ast.dimensions =
      .ok (dims2.1, dims2.2) := h3
  obtain ⟨hl1, _, hidx⟩ := compileDimensions_spec r tables
    ast.dimensions dims2.1 dims2.2 h3b
  obtain ⟨c, hc, hgb, hsel⟩ := hidx i d hd
  obtain ⟨t, htl, hcEq⟩ :=
    resolveDimensionColumn_trunc r tables d.field fm g c hfm hg hc
  obtain ⟨hlt, _⟩ := List.get?_eq_some.1 hd
  refine ⟨t, htl, ?_, ?_, ?_⟩
  · rw [← hstmt]
    show dims2.2.get? i = _
    rw [hgb, hcEq]
  · rw [← hstmt]
    show (dims2.1 ++ mcols).get? i = _
    rw [List.get?_append (by rw [hl1]; exact hlt), hsel, hcEq]
  · rw [← hstmt]
    show dims2.2.get? i ≠ _
    rw [hgb, hcEq]
    simp

/-- Witness for C1: compiling a monthly-trend query over the default
registry; the order_month dimension truncates order_date to month grain
in both SELECT and GROUP BY. -/
theorem compile_groupBy_uses_truncated_dimension_witness :
    ∃ t, tableLookup defaultSQLTables "orders" = .ok t ∧
      ([SQLExpr.dateTrunc "month" (SQLExpr.col "orders" "order_date")].get? 0 =
        some (SQLExpr.dateTrunc "month"
          (SQLExpr.col t.name "order_date"))) ∧
      ([SQLExpr.dateTrunc "month" (SQLExpr.col "orders" "order_date"),
        SQLExpr.label "quantity"
          (SQLExpr.funcSum (SQLExpr.col "orders" "quantity"))].get? 0 =
        some (SQLExpr.dateTrunc "month"
          (SQLExpr.col t.name "order_date"))) ∧
      ([SQLExpr.dateTrunc "month" (SQLExpr.col "orders" "order_date")].get? 0 ≠
        some (SQLExpr.col t.name "order_date")) := by
  have h := compile_groupBy_uses_truncated_dimension defaultRegistry
    defaultSQLTables
    { metrics := [{ function := AggregateFunction.sum, field := "quantity" }]
      dimensions := [{ field := "order_month" }] }
    { base_table := "orders", joins := [] }
    { selectColumns :=
        [SQLExpr.dateTrunc "month" (SQLExpr.col "orders" "order_date"),
         SQLExpr.label "quantity"
           (SQLExpr.funcSum (SQLExpr.col "orders" "quantity"))]
      fromClause := FromClause.table "orders"
      whereClauses := [], orderBy := [], limit := 50
      groupBy :=
        [SQLExpr.dateTrunc "month" (SQLExpr.col "orders" "order_date")] }
    (by decide) 0 { field := "order_month" }
    { table := "orders", column := "order_date"
      field_type := FieldType.date
      description := "Month of the order (use for monthly trends)"
      date_trunc := some "month" }
    "month" (by decide) (by decide) (by decide)
  exact h

end ClarityQL
